import Mathlib

/-!
Verification development for the allsee-app backend (`src/backend/server.py`).

The geo-math utilities (`haversine_distance_m`, `bbox_from_center`,
`mask_location`) are embedded over the exact reals, mirroring the Python
float code symbolically.  The stream/event store and the clustering engine
(`assign_event_for_stream`, `create_stream`, `end_stream`,
`get_events_range`) are embedded as explicit state passing over lists of
documents kept in insertion order (Mongo natural order); branch conditions
on real-valued coordinates use classical decidability, mirroring comparisons
the Python runtime performs on floats.  Timestamps are rationals (seconds),
ids are naturals drawn from a state counter standing for the distinct uuids.
The per-call `uuid.uuid4().int` randomness of `mask_location` is passed in
as an explicit natural parameter.
-/

namespace Allsee

open Real

/-- `math.radians`: degrees to radians. -/
noncomputable def radians (x : ℝ) : ℝ := x * Real.pi / 180

/-- `math.atan2` with the C/Python quadrant convention. -/
noncomputable def atan2 (y x : ℝ) : ℝ :=
  if 0 < x then Real.arctan (y / x)
  else if x < 0 then
    (if 0 ≤ y then Real.arctan (y / x) + Real.pi else Real.arctan (y / x) - Real.pi)
  else if 0 < y then Real.pi / 2
  else if y < 0 then -(Real.pi / 2)
  else 0

/-- `haversine_distance_m` from `server.py`: great-circle distance in metres
with mean Earth radius 6371000. -/
noncomputable def haversine_distance_m (lat1 lon1 lat2 lon2 : ℝ) : ℝ :=
  let R : ℝ := 6371000
  let phi1 := radians lat1
  let phi2 := radians lat2
  let dphi := radians (lat2 - lat1)
  let dlambda := radians (lon2 - lon1)
  let a := Real.sin (dphi / 2) ^ 2 +
    Real.cos phi1 * Real.cos phi2 * Real.sin (dlambda / 2) ^ 2
  let c := 2 * atan2 (Real.sqrt a) (Real.sqrt (1 - a))
  R * c

/-- The bounding box returned by `bbox_from_center`. -/
structure BBoxRect where
  min_lat : ℝ
  min_lng : ℝ
  max_lat : ℝ
  max_lng : ℝ

/-- `bbox_from_center` from `server.py`: axis-aligned box of the given radius,
longitude scale clamped by `max(0.00001, cos(lat))`. -/
noncomputable def bbox_from_center (lat lng radius_m : ℝ) : BBoxRect :=
  let lat_delta := radius_m / 111320
  let lng_delta := radius_m / (111320 * max 0.00001 (Real.cos (radians lat)))
  ⟨lat - lat_delta, lng - lng_delta, lat + lat_delta, lng + lng_delta⟩

/-- The `LocationPrivacy` literal type of `server.py`. -/
inductive LocationPrivacy
  | exact
  | masked_100m
  | masked_1km
deriving DecidableEq, Repr

/-- The angle draw inside `mask_location`: `(uuid4().int % 1000000) % 360`. -/
def maskAngleIdx (u : ℕ) : ℕ := u % 1000000 % 360

/-- The distance draw inside `mask_location`: `(uuid4().int % 1000000) % 1000`. -/
def maskDistIdx (u : ℕ) : ℕ := u % 1000000 % 1000

/-- `mask_location` from `server.py`.  `u` is the `uuid.uuid4().int` value
drawn on this call. -/
noncomputable def mask_location (lat lng : ℝ) (mode : LocationPrivacy) (u : ℕ) :
    ℝ × ℝ :=
  match mode with
  | .exact => (lat, lng)
  | _ =>
    let radius : ℝ := if mode = .masked_100m then 100 else 1000
    let angle : ℝ := (maskAngleIdx u : ℝ) * Real.pi / 180
    let dist : ℝ := (maskDistIdx u : ℝ) / 1000 * radius
    let dlat := dist / 111320 * Real.sin angle
    let dlng := dist / (111320 * max 0.00001 (Real.cos (radians lat))) * Real.cos angle
    (lat + dlat, lng + dlng)

/-! ### Basic geometry lemmas -/

theorem radians_zero : radians 0 = 0 := by simp [radians]

theorem atan2_zero_one : atan2 0 1 = 0 := by
  simp [atan2, Real.arctan_zero]

/-- The haversine distance from a point to itself is zero. -/
theorem haversine_self (la ln : ℝ) : haversine_distance_m la ln la ln = 0 := by
  simp [haversine_distance_m, radians_zero, zero_div, Real.sin_zero, Real.sqrt_zero,
    Real.sqrt_one, atan2_zero_one]

/-- The haversine formula, written out. -/
theorem haversine_eq (lat1 lon1 lat2 lon2 : ℝ) :
    haversine_distance_m lat1 lon1 lat2 lon2 =
      6371000 * (2 * atan2
        (Real.sqrt (Real.sin (radians (lat2 - lat1) / 2) ^ 2 +
          Real.cos (radians lat1) * Real.cos (radians lat2) *
            Real.sin (radians (lon2 - lon1) / 2) ^ 2))
        (Real.sqrt (1 - (Real.sin (radians (lat2 - lat1) / 2) ^ 2 +
          Real.cos (radians lat1) * Real.cos (radians lat2) *
            Real.sin (radians (lon2 - lon1) / 2) ^ 2)))) := rfl

/-- Haversine distance is symmetric in its two points. -/
theorem haversine_comm (lat1 lon1 lat2 lon2 : ℝ) :
    haversine_distance_m lat1 lon1 lat2 lon2 = haversine_distance_m lat2 lon2 lat1 lon1 := by
  have h1 : radians (lat1 - lat2) = -radians (lat2 - lat1) := by
    simp [radians]; ring
  have h2 : radians (lon1 - lon2) = -radians (lon2 - lon1) := by
    simp [radians]; ring
  simp only [haversine_distance_m, h1, h2, neg_div, Real.sin_neg, neg_sq]
  ring_nf

/-- On the equator, the haversine distance between longitudes `a ≤ b` with
`b - a < 180` is exactly `6371000 * ((b - a) * π / 180)`. -/
theorem haversine_equator (a b : ℝ) (hab : a ≤ b) (h180 : b - a < 180) :
    haversine_distance_m 0 a 0 b = 6371000 * ((b - a) * Real.pi / 180) := by
  have hpi := Real.pi_pos
  set θ : ℝ := (b - a) * Real.pi / 180 / 2 with hθ
  have hθ0 : 0 ≤ θ := by
    have : 0 ≤ (b - a) * Real.pi := mul_nonneg (by linarith) (le_of_lt hpi)
    rw [hθ]; positivity
  have hθlt : θ < Real.pi / 2 := by
    rw [hθ]
    have h1 : (b - a) * Real.pi < 180 * Real.pi := by
      exact mul_lt_mul_of_pos_right h180 hpi
    linarith
  have hsin0 : (0:ℝ) ≤ Real.sin θ :=
    Real.sin_nonneg_of_nonneg_of_le_pi hθ0 (by linarith)
  have hcos0 : 0 < Real.cos θ :=
    Real.cos_pos_of_mem_Ioo ⟨by linarith, hθlt⟩
  have hsq : Real.sqrt (Real.sin θ ^ 2) = Real.sin θ := Real.sqrt_sq hsin0
  have hsq' : Real.sqrt (1 - Real.sin θ ^ 2) = Real.cos θ := by
    have : 1 - Real.sin θ ^ 2 = Real.cos θ ^ 2 := by
      have := Real.sin_sq_add_cos_sq θ; linarith
    rw [this, Real.sqrt_sq (le_of_lt hcos0)]
  have hsub : radians (0 - 0) = 0 := by simp [radians]
  have hlam : radians (b - a) / 2 = θ := by
    rw [hθ, radians]
  have hatan : atan2 (Real.sin θ) (Real.cos θ) = θ := by
    rw [atan2, if_pos hcos0, ← Real.tan_eq_sin_div_cos,
      Real.arctan_tan (by linarith) hθlt]
  -- unfold and compute
  show (6371000:ℝ) * (2 * atan2
      (Real.sqrt (Real.sin (radians (0 - 0) / 2) ^ 2 +
        Real.cos (radians 0) * Real.cos (radians 0) * Real.sin (radians (b - a) / 2) ^ 2))
      (Real.sqrt (1 - (Real.sin (radians (0 - 0) / 2) ^ 2 +
        Real.cos (radians 0) * Real.cos (radians 0) * Real.sin (radians (b - a) / 2) ^ 2)))) =
    6371000 * ((b - a) * Real.pi / 180)
  rw [hsub, hlam, radians_zero, Real.cos_zero]
  simp only [zero_div, Real.sin_zero, ne_eq, OfNat.ofNat_ne_zero, not_false_eq_true,
    zero_pow, one_mul, zero_add]
  rw [hsq, hsq', hatan]
  rw [hθ]; ring

/-! ### Data model: stream and event documents, server state -/

/-- Lifecycle status shared by streams and events (`'live' | 'ended'`). -/
inductive LifeStatus
  | live
  | ended
deriving DecidableEq, Repr

/-- A stream document as stored in `db.streams` (fields relevant to the
clustering engine; `user_id`, `device_camera`, `playback_url`,
`viewer_count_peak` are opaque payload and omitted). -/
structure StreamDoc where
  id : ℕ
  lat : ℝ
  lng : ℝ
  started_at : ℚ
  ended_at : Option ℚ
  event_id : Option ℕ
  status : LifeStatus
  privacy_mode : LocationPrivacy

/-- An event document as stored in `db.events` (`viewer_count_total` and
`hashtags` are opaque payload and omitted). -/
structure EventDoc where
  id : ℕ
  centroid_lat : ℝ
  centroid_lng : ℝ
  radius_meters : ℕ
  created_at : ℚ
  ended_at : Option ℚ
  stream_count : ℕ
  status : LifeStatus

/-- The document store: lists in insertion order, plus a counter standing for
the supply of fresh uuids. -/
structure ServerState where
  streams : List StreamDoc
  events : List EventDoc
  next : ℕ

/-- The empty store. -/
def initialState : ServerState := ⟨[], [], 0⟩

/-- Typed failures surfaced by the endpoints (HTTP 404 / 400 details). -/
inductive ApiError
  | NotFound
  | InvalidRange
  | InvalidBoundingBox
deriving DecidableEq, Repr

/-- `update_one`: apply `f` to the first element satisfying `p`, keep the
rest unchanged. -/
def updateFirst {α : Type} (p : α → Bool) (f : α → α) : List α → List α
  | [] => []
  | a :: l => if p a then f a :: l else a :: updateFirst p f l

/-- The live streams referencing event id `E`
(`db.streams.find({'event_id': E, 'status': 'live'})`). -/
def liveMembers (streams : List StreamDoc) (E : ℕ) : List StreamDoc :=
  streams.filter fun t => decide (t.event_id = some E) && decide (t.status = LifeStatus.live)

open Classical in
/-- The candidate query of `assign_event_for_stream`: live, started inside the
10-minute window, inside the 60 m bounding box, different id. -/
noncomputable def isCandidate (now : ℚ) (b : BBoxRect) (sid : ℕ) (s : StreamDoc) : Bool :=
  decide (s.status = LifeStatus.live) && decide (s.started_at ≥ now - 600) &&
  decide (b.min_lat ≤ s.lat) && decide (s.lat ≤ b.max_lat) &&
  decide (b.min_lng ≤ s.lng) && decide (s.lng ≤ b.max_lng) &&
  decide (s.id ≠ sid)

open Classical in
/-- `assign_event_for_stream` from `server.py`.  Returns the updated store and
the resolved event id (or `none`).  `now` is `datetime.utcnow()` at the call. -/
noncomputable def assign_event_for_stream (st : ServerState) (now : ℚ)
    (sdoc : StreamDoc) : ServerState × Option ℕ :=
  let b := bbox_from_center sdoc.lat sdoc.lng 60
  let candidates := (st.streams.filter (isCandidate now b sdoc.id)).take 100
  let nearby := candidates.filter fun s =>
    decide (haversine_distance_m sdoc.lat sdoc.lng s.lat s.lng ≤ 50)
  if nearby.isEmpty then (st, none)
  else
    match (nearby.find? fun s => s.event_id.isSome).bind (·.event_id) with
    | some event_id =>
      let streams1 := updateFirst (fun s => decide (s.id = sdoc.id))
        (fun s => { s with event_id := some event_id }) st.streams
      let event_streams := (liveMembers streams1 event_id).take 100
      let events1 :=
        if event_streams.isEmpty then st.events
        else updateFirst (fun e => decide (e.id = event_id))
          (fun e => { e with
            centroid_lat := (event_streams.map (·.lat)).sum / event_streams.length,
            centroid_lng := (event_streams.map (·.lng)).sum / event_streams.length,
            stream_count := event_streams.length }) st.events
      ({ st with streams := streams1, events := events1 }, some event_id)
    | none =>
      let event_id := st.next
      let participants := sdoc :: nearby
      let edoc : EventDoc :=
        { id := event_id
          centroid_lat := (participants.map (·.lat)).sum / participants.length
          centroid_lng := (participants.map (·.lng)).sum / participants.length
          radius_meters := 50
          created_at := now
          ended_at := none
          stream_count := participants.length
          status := .live }
      let ids : List ℕ := participants.map (·.id)
      let streams1 := st.streams.map fun s =>
        if s.id ∈ ids then { s with event_id := some event_id } else s
      ({ streams := streams1, events := st.events ++ [edoc], next := st.next + 1 },
       some event_id)

/-- The request payload of `POST /api/streams` (opaque fields omitted). -/
structure StreamCreatePayload where
  lat : ℝ
  lng : ℝ
  privacy_mode : LocationPrivacy

/-- The `StreamOut` response model (opaque fields omitted). -/
structure StreamOut where
  id : ℕ
  lat : ℝ
  lng : ℝ
  started_at : ℚ
  ended_at : Option ℚ
  event_id : Option ℕ
  status : LifeStatus
  privacy_mode : LocationPrivacy

/-- `create_stream` from `server.py`: insert the stream, run the clustering
engine, patch the stream's `event_id`, and answer with coordinates passed
through `mask_location`.  `u` is the `uuid4().int` drawn for masking. -/
noncomputable def create_stream (st : ServerState) (now : ℚ)
    (p : StreamCreatePayload) (u : ℕ) : ServerState × StreamOut :=
  let stream_id := st.next
  let sdoc : StreamDoc :=
    { id := stream_id, lat := p.lat, lng := p.lng, started_at := now,
      ended_at := none, event_id := none, status := .live,
      privacy_mode := p.privacy_mode }
  let st1 : ServerState := { st with streams := st.streams ++ [sdoc], next := st.next + 1 }
  let res := assign_event_for_stream st1 now sdoc
  let st3 : ServerState :=
    match res.2 with
    | some eid =>
      let streams3 := updateFirst (fun s => decide (s.id = stream_id))
        (fun s => { s with event_id := some eid }) res.1.streams
      { res.1 with streams := streams3 }
    | none => res.1
  let masked := mask_location p.lat p.lng p.privacy_mode u
  (st3,
   { id := stream_id, lat := masked.1, lng := masked.2, started_at := now,
     ended_at := none, event_id := res.2, status := .live,
     privacy_mode := p.privacy_mode })

/-- `end_stream` from `server.py`: atomically end the stream (404 if absent or
already ended), then close its event when no live member remains. -/
noncomputable def end_stream (st : ServerState) (now : ℚ) (stream_id : ℕ) :
    ServerState × Except ApiError Unit :=
  let p := fun s : StreamDoc => decide (s.id = stream_id) && decide (s.status = LifeStatus.live)
  if (st.streams.find? p).isNone then (st, .error .NotFound)
  else
    let streams1 := updateFirst p
      (fun s => { s with status := .ended, ended_at := some now }) st.streams
    match streams1.find? fun s => decide (s.id = stream_id) with
    | none => ({ st with streams := streams1 }, .ok ())
    | some doc =>
      match doc.event_id with
      | none => ({ st with streams := streams1 }, .ok ())
      | some ev_id =>
        if (liveMembers streams1 ev_id).length = 0 then
          let events1 := updateFirst (fun e => decide (e.id = ev_id))
            (fun e => { e with status := .ended, ended_at := some now }) st.events
          ({ st with streams := streams1, events := events1 }, .ok ())
        else ({ st with streams := streams1 }, .ok ())

/-- A parsed `ne`/`sw` bounding-box parameter pair: either a well-formed pair
of corners or a pair that fails float parsing. -/
inductive BBoxParam
  | valid (ne_lat ne_lng sw_lat sw_lng : ℝ)
  | malformed

open Classical in
/-- `get_events_range` (GET `/api/events/range`) from `server.py`: defaults
`from = now - 1h`, `to = now`; 400 if `from > to`; filters `created_at` in
the closed interval, optional centroid bbox filter, sorted by `created_at`
descending, first 1000. -/
noncomputable def get_events_range (st : ServerState) (now : ℚ)
    (from_ts to_ts : Option ℚ) (bbox : Option BBoxParam) :
    Except ApiError (List EventDoc) :=
  let start := from_ts.getD (now - 3600)
  let stop := to_ts.getD now
  if start > stop then .error .InvalidRange
  else
    let timeOk := fun e : EventDoc =>
      decide (start ≤ e.created_at) && decide (e.created_at ≤ stop)
    let newestFirst := fun e1 e2 : EventDoc => e2.created_at ≤ e1.created_at
    match bbox with
    | some .malformed => .error .InvalidBoundingBox
    | some (.valid ne_lat ne_lng sw_lat sw_lng) =>
      let matched := st.events.filter fun e => timeOk e &&
        decide (sw_lat ≤ e.centroid_lat) && decide (e.centroid_lat ≤ ne_lat) &&
        decide (sw_lng ≤ e.centroid_lng) && decide (e.centroid_lng ≤ ne_lng)
      .ok ((matched.insertionSort newestFirst).take 1000)
    | none =>
      .ok (((st.events.filter timeOk).insertionSort newestFirst).take 1000)

/-- One inbound mutating operation: stream creation or stream end, each
carrying its own wall-clock time. -/
inductive Op
  | create (now : ℚ) (p : StreamCreatePayload) (u : ℕ)
  | stop (now : ℚ) (stream_id : ℕ)

/-- Apply one operation to the store. -/
noncomputable def runOp (st : ServerState) : Op → ServerState
  | .create now p u => (create_stream st now p u).1
  | .stop now sid => (end_stream st now sid).1

/-- Run a sequence of operations. -/
noncomputable def run (st : ServerState) : List Op → ServerState
  | [] => st
  | op :: ops => run (runOp st op) ops

/-- Well-formedness of a store: document ids are pairwise distinct and below
the uuid counter (uuids never collide). -/
def WF (st : ServerState) : Prop :=
  (st.streams.map (·.id)).Nodup ∧ (st.events.map (·.id)).Nodup ∧
  (∀ s ∈ st.streams, s.id < st.next) ∧
  (∀ e ∈ st.events, e.id < st.next) ∧
  (∀ s ∈ st.streams, ∀ E, s.event_id = some E → E < st.next)

/-! ### Helper lemmas about the store operations -/

theorem updateFirst_map_eq {α β : Type} (g : α → β) (p : α → Bool) (f : α → α)
    (h : ∀ x, g (f x) = g x) : ∀ l : List α, (updateFirst p f l).map g = l.map g := by
  intro l
  induction l with
  | nil => rfl
  | cons a l ih =>
    by_cases hp : p a
    · simp [updateFirst, hp, h a]
    · simp [updateFirst, hp, ih]

theorem updateFirst_length {α : Type} (p : α → Bool) (f : α → α) :
    ∀ l : List α, (updateFirst p f l).length = l.length := by
  intro l
  induction l with
  | nil => rfl
  | cons a l ih =>
    by_cases hp : p a
    · simp [updateFirst, hp]
    · simp [updateFirst, hp, ih]

theorem updateFirst_cons_pos {α : Type} {p : α → Bool} {f : α → α} {a : α} {l : List α}
    (h : p a = true) : updateFirst p f (a :: l) = f a :: l := by
  simp [updateFirst, h]

theorem updateFirst_cons_neg {α : Type} {p : α → Bool} {f : α → α} {a : α} {l : List α}
    (h : ¬ p a = true) : updateFirst p f (a :: l) = a :: updateFirst p f l := by
  simp [updateFirst, h]

/-- Everything in a `StreamDoc` except `event_id` (the only field the
clustering pipeline ever rewrites). -/
def sansEvent (s : StreamDoc) :
    ℕ × ℝ × ℝ × ℚ × Option ℚ × LifeStatus × LocationPrivacy :=
  (s.id, s.lat, s.lng, s.started_at, s.ended_at, s.status, s.privacy_mode)

theorem assign_streams_sansEvent (st : ServerState) (now : ℚ) (sdoc : StreamDoc) :
    ((assign_event_for_stream st now sdoc).1.streams).map sansEvent =
      st.streams.map sansEvent := by
  unfold assign_event_for_stream
  dsimp only
  split
  · rfl
  · split
    · dsimp only
      apply updateFirst_map_eq
      intro x
      rfl
    · dsimp only
      rw [List.map_map]
      congr 1
      funext x
      simp only [Function.comp_apply]
      split
      · simp [sansEvent]
      · rfl

theorem create_stream_streams_sansEvent (st : ServerState) (now : ℚ)
    (p : StreamCreatePayload) (u : ℕ) :
    ((create_stream st now p u).1.streams).map sansEvent =
      (st.streams.map sansEvent) ++
        [(st.next, p.lat, p.lng, now, none, LifeStatus.live, p.privacy_mode)] := by
  unfold create_stream
  dsimp only
  split
  · rename_i eid heq
    dsimp only
    rw [updateFirst_map_eq sansEvent _
        (fun s => { s with event_id := some eid }) (fun x => rfl),
      assign_streams_sansEvent]
    simp [sansEvent]
  · rw [assign_streams_sansEvent]
    simp [sansEvent]

/-! ### C10: creation response is masked, stored record is raw -/

/-- C10 (amended): the stream-creation response reports the coordinates
passed through `mask_location` under the stream's own privacy mode, while the
persisted stream record stores the raw, unmasked `lat`/`lng`.  (The claim's
parenthetical — that a caller with a masked mode never receives the raw
coordinates — fails when the random distance draw is zero; see the
counterexample.) -/
theorem creation_response_masked_record_raw (st : ServerState) (now : ℚ)
    (p : StreamCreatePayload) (u : ℕ) :
    ((create_stream st now p u).2.lat, (create_stream st now p u).2.lng) =
      mask_location p.lat p.lng p.privacy_mode u ∧
    ∃ t ∈ (create_stream st now p u).1.streams,
      t.id = st.next ∧ t.lat = p.lat ∧ t.lng = p.lng := by
  constructor
  · unfold create_stream
    dsimp only
  · have h := create_stream_streams_sansEvent st now p u
    have hmem : (st.next, p.lat, p.lng, now, (none : Option ℚ), LifeStatus.live,
        p.privacy_mode) ∈ ((create_stream st now p u).1.streams).map sansEvent := by
      rw [h]; simp
    obtain ⟨t, ht, hts⟩ := List.mem_map.mp hmem
    refine ⟨t, ht, ?_, ?_, ?_⟩
    · exact congrArg (·.1) hts
    · exact congrArg (·.2.1) hts
    · exact congrArg (·.2.2.1) hts

/-- Evaluating `mask_location` when the drawn `uuid4().int` is 0: the random
distance comes out 0 and the masked point coincides with the raw point. -/
theorem mask_location_zero_draw (lat lng : ℝ) :
    mask_location lat lng LocationPrivacy.masked_100m 0 = (lat, lng) := by
  simp [mask_location, maskDistIdx, maskAngleIdx]

/-- C10 counterexample: with raw coordinates (0, 0), privacy mode
`masked_100m` and random draw `u = 0`, the creation response carries exactly
the raw coordinates — a caller with a masked mode can receive the raw
location. -/
theorem creation_response_equals_raw_at_zero_draw :
    (create_stream initialState 0 ⟨0, 0, LocationPrivacy.masked_100m⟩ 0).2.lat = 0 ∧
    (create_stream initialState 0 ⟨0, 0, LocationPrivacy.masked_100m⟩ 0).2.lng = 0 := by
  have hresp : ((create_stream initialState 0 ⟨0, 0, LocationPrivacy.masked_100m⟩ 0).2.lat,
      (create_stream initialState 0 ⟨0, 0, LocationPrivacy.masked_100m⟩ 0).2.lng) =
      mask_location 0 0 LocationPrivacy.masked_100m 0 := by
    unfold create_stream
    dsimp only
  rw [mask_location_zero_draw] at hresp
  exact ⟨congrArg (·.1) hresp, congrArg (·.2) hresp⟩

/-! ### C6: the two random draws inside `mask_location` -/

/-- The independence property C6 asserts: over a uniformly random
`uuid4().int % 1000000`, the angle index and the distance index drawn by
`mask_location` are statistically independent. -/
def maskDrawsIndependent : Prop :=
  ∀ a < 360, ∀ d < 1000,
    ((Finset.range 1000000).filter fun u => maskAngleIdx u = a ∧ maskDistIdx u = d).card
        * 1000000 =
      ((Finset.range 1000000).filter fun u => maskAngleIdx u = a).card *
        ((Finset.range 1000000).filter fun u => maskDistIdx u = d).card

/-- Both draws are reductions of the single random value `u % 1000000`, so
they always agree modulo `gcd 360 1000 = 40`. -/
theorem maskIdx_congruent_mod_40 (u : ℕ) : maskAngleIdx u % 40 = maskDistIdx u % 40 := by
  unfold maskAngleIdx maskDistIdx
  rw [Nat.mod_mod_of_dvd _ (by norm_num : (40:ℕ) ∣ 360),
    Nat.mod_mod_of_dvd _ (by norm_num : (40:ℕ) ∣ 1000)]

/-- C6 counterexample: the angle and distance draws of `mask_location` are
not independent — no value of the underlying single draw can produce angle
index 1 together with distance index 0 (they always agree mod 40), while both
margins are nonempty. -/
theorem mask_draws_not_independent : ¬ maskDrawsIndependent := by
  intro h
  have h10 := h 1 (by norm_num) 0 (by norm_num)
  have hempty :
      ((Finset.range 1000000).filter fun u => maskAngleIdx u = 1 ∧ maskDistIdx u = 0).card = 0 := by
    rw [Finset.card_eq_zero, Finset.filter_eq_empty_iff]
    intro u _ hu
    have hc := maskIdx_congruent_mod_40 u
    rw [hu.1, hu.2] at hc
    norm_num at hc
  have hmem1 : (361:ℕ) ∈ (Finset.range 1000000).filter fun u => maskAngleIdx u = 1 := by
    rw [Finset.mem_filter]
    exact ⟨by norm_num, by norm_num [maskAngleIdx]⟩
  have hmem2 : (0:ℕ) ∈ (Finset.range 1000000).filter fun u => maskDistIdx u = 0 := by
    rw [Finset.mem_filter]
    exact ⟨by norm_num, by norm_num [maskDistIdx]⟩
  have hpos1 : 0 < ((Finset.range 1000000).filter fun u => maskAngleIdx u = 1).card :=
    Finset.card_pos.mpr ⟨361, hmem1⟩
  have hpos2 : 0 < ((Finset.range 1000000).filter fun u => maskDistIdx u = 0).card :=
    Finset.card_pos.mpr ⟨0, hmem2⟩
  rw [hempty, Nat.zero_mul] at h10
  have hpos := Nat.mul_pos hpos1 hpos2
  omega

/-- C6 (amended): `mask_location` draws a single fresh random value per call;
the angle and distance fraction are both derived from that one value (and are
therefore dependent — they agree modulo 40), and distinct draws do produce
distinct masked points, so two successive calls on the same stream's
coordinates are still expected to return different masked points. -/
theorem mask_draw_fresh_but_single_source :
    (∀ u : ℕ, maskAngleIdx u % 40 = maskDistIdx u % 40) ∧
    mask_location 0 0 LocationPrivacy.masked_100m 500 ≠
      mask_location 0 0 LocationPrivacy.masked_100m 0 := by
  refine ⟨maskIdx_congruent_mod_40, ?_⟩
  rw [mask_location_zero_draw]
  intro hcontra
  have hlat := congrArg (·.1) hcontra
  have hangle : ((maskAngleIdx 500 : ℕ) : ℝ) = 140 := by norm_num [maskAngleIdx]
  have hdist : ((maskDistIdx 500 : ℕ) : ℝ) = 500 := by norm_num [maskDistIdx]
  have hsinpos : 0 < Real.sin ((140:ℝ) * Real.pi / 180) := by
    apply Real.sin_pos_of_pos_of_lt_pi
    · positivity
    · nlinarith [Real.pi_pos]
  have : (0:ℝ) + (500:ℝ) / 1000 * 100 / 111320 * Real.sin ((140:ℝ) * Real.pi / 180) = 0 := by
    have := hlat
    simpa [mask_location, hangle, hdist] using this
  nlinarith

/-! ### C7: end-stream lifecycle and error handling -/

theorem updateFirst_of_find? {α : Type} (p : α → Bool) (f : α → α) :
    ∀ (l : List α) (a : α), l.find? p = some a → f a ∈ updateFirst p f l := by
  intro l
  induction l with
  | nil => intro a h; simp [List.find?] at h
  | cons x l ih =>
    intro a h
    by_cases hp : p x
    · rw [List.find?_cons_of_pos _ hp] at h
      cases h
      simp [updateFirst, hp]
    · rw [List.find?_cons_of_neg _ hp] at h
      simp only [updateFirst, hp, Bool.false_eq_true, if_false]
      exact List.mem_cons_of_mem x (ih a h)

/-- After `end_stream` has ended the unique live stream with id `sid`, no
further live stream with that id exists (ids are distinct). -/
theorem find?_updateFirst_ended_none (sid : ℕ) (now : ℚ) :
    ∀ l : List StreamDoc, (l.map (·.id)).Nodup →
      (updateFirst (fun s => decide (s.id = sid) && decide (s.status = LifeStatus.live))
        (fun s => { s with status := .ended, ended_at := some now }) l).find?
        (fun s => decide (s.id = sid) && decide (s.status = LifeStatus.live)) = none := by
  intro l
  induction l with
  | nil => intro _; rfl
  | cons x l ih =>
    intro hnd
    rw [List.map_cons, List.nodup_cons] at hnd
    rw [List.find?_eq_none]
    intro y hy hpy
    simp only [Bool.and_eq_true, decide_eq_true_eq] at hpy
    by_cases hp : (decide (x.id = sid) && decide (x.status = LifeStatus.live)) = true
    · simp only [updateFirst, hp, if_true] at hy
      rcases List.mem_cons.mp hy with h1 | h1
      · rw [h1] at hpy
        exact absurd hpy.2 (by simp)
      · simp only [Bool.and_eq_true, decide_eq_true_eq] at hp
        refine hnd.1 ?_
        have hxy : x.id = y.id := by rw [hp.1, hpy.1]
        rw [hxy]
        exact List.mem_map_of_mem _ h1
    · simp only [updateFirst, hp, Bool.false_eq_true, if_false] at hy
      rcases List.mem_cons.mp hy with h1 | h1
      · rw [← h1] at hp
        exact hp (by simp [hpy.1, hpy.2])
      · have hn := List.find?_eq_none.mp (ih hnd.2) y h1
        exact hn (by simp [hpy.1, hpy.2])

/-- C7: ending an existing live stream succeeds and transitions it to `ended`
with `ended_at` stamped; ending a nonexistent or already-ended id fails with
`NotFound` and leaves the store untouched.  In particular two consecutive
end calls on one id yield success and then `NotFound`. -/
theorem end_stream_success_then_notfound (st : ServerState) (now1 now2 : ℚ) (sid : ℕ)
    (hnd : (st.streams.map (·.id)).Nodup) :
    ((∃ s ∈ st.streams, s.id = sid ∧ s.status = LifeStatus.live) →
      (end_stream st now1 sid).2 = .ok () ∧
      (∃ t ∈ (end_stream st now1 sid).1.streams,
        t.id = sid ∧ t.status = LifeStatus.ended ∧ t.ended_at = some now1) ∧
      (end_stream (end_stream st now1 sid).1 now2 sid).2 = .error .NotFound) ∧
    ((¬ ∃ s ∈ st.streams, s.id = sid ∧ s.status = LifeStatus.live) →
      (end_stream st now1 sid).2 = .error .NotFound ∧ (end_stream st now1 sid).1 = st) := by
  constructor
  · rintro ⟨s, hs, hsid, hlive⟩
    have hsome : (st.streams.find? fun t =>
        decide (t.id = sid) && decide (t.status = LifeStatus.live)).isSome = true := by
      rw [List.find?_isSome]
      exact ⟨s, hs, by simp [hsid, hlive]⟩
    obtain ⟨a, ha⟩ := Option.isSome_iff_exists.mp hsome
    have hfind : ¬ (st.streams.find? fun t =>
        decide (t.id = sid) && decide (t.status = LifeStatus.live)).isNone = true := by
      rw [ha]
      simp
    have hmem := updateFirst_of_find? _
      (fun s => { s with status := LifeStatus.ended, ended_at := some now1 }) _ _ ha
    have hpa := List.find?_some ha
    simp only [Bool.and_eq_true, decide_eq_true_eq] at hpa
    have hstreams1 : (end_stream st now1 sid).1.streams =
        updateFirst (fun s => decide (s.id = sid) && decide (s.status = LifeStatus.live))
          (fun s => { s with status := LifeStatus.ended, ended_at := some now1 }) st.streams := by
      unfold end_stream
      rw [if_neg hfind]
      dsimp only
      split <;> (try split) <;> (try split) <;> rfl
    refine ⟨?_, ⟨{ a with status := LifeStatus.ended, ended_at := some now1 },
        by rw [hstreams1]; exact hmem, hpa.1, rfl, rfl⟩, ?_⟩
    · unfold end_stream
      rw [if_neg hfind]
      dsimp only
      split <;> (try split) <;> (try split) <;> rfl
    · have hnone := find?_updateFirst_ended_none sid now1 st.streams hnd
      set ST2 := (end_stream st now1 sid).1 with hST2
      have hfind2 : (ST2.streams.find? fun t =>
          decide (t.id = sid) && decide (t.status = LifeStatus.live)).isNone = true := by
        rw [hST2, hstreams1, hnone]
        rfl
      unfold end_stream
      rw [if_pos hfind2]
  · intro hne
    have hfind : (st.streams.find? fun t =>
        decide (t.id = sid) && decide (t.status = LifeStatus.live)).isNone = true := by
      rw [Option.isNone_iff_eq_none, List.find?_eq_none]
      intro x hx hpx
      simp only [Bool.and_eq_true, decide_eq_true_eq] at hpx
      exact hne ⟨x, hx, hpx⟩
    unfold end_stream
    rw [if_pos hfind]
    exact ⟨rfl, rfl⟩

/-! ### C4: event closure when the last live member ends -/

theorem find?_key_eq_some {α : Type} (key : α → ℕ) (k : ℕ) :
    ∀ l : List α, (l.map key).Nodup → ∀ a ∈ l, key a = k →
      l.find? (fun x => decide (key x = k)) = some a := by
  intro l
  induction l with
  | nil => intro _ a ha; exact absurd ha (List.not_mem_nil a)
  | cons x l ih =>
    intro hnd a ha hak
    rw [List.map_cons, List.nodup_cons] at hnd
    rcases List.mem_cons.mp ha with h1 | h1
    · subst h1
      exact List.find?_cons_of_pos _ (by simp [hak])
    · by_cases hx : key x = k
      · exact absurd (by rw [hx, ← hak]; exact List.mem_map_of_mem _ h1) hnd.1
      · rw [List.find?_cons_of_neg _ (by simp [hx])]
        exact ih hnd.2 a h1 hak

theorem mem_updateFirst_of_not_pred {α : Type} (p : α → Bool) (f : α → α) :
    ∀ l : List α, ∀ x ∈ l, ¬ p x = true → x ∈ updateFirst p f l := by
  intro l
  induction l with
  | nil => intro x hx; exact absurd hx (List.not_mem_nil x)
  | cons a l ih =>
    intro x hx hpx
    rcases List.mem_cons.mp hx with h1 | h1
    · have hpa : ¬ p a = true := h1 ▸ hpx
      simp only [updateFirst, hpa, Bool.false_eq_true, if_false]
      exact h1 ▸ List.mem_cons_self x _
    · by_cases hpa : p a = true
      · simp only [updateFirst, hpa, if_true]
        exact List.mem_cons_of_mem _ h1
      · simp only [updateFirst, hpa, Bool.false_eq_true, if_false]
        exact List.mem_cons_of_mem _ (ih x h1 hpx)

/-- The stream lookup done by `end_stream` after its status update: with
distinct ids, looking up `sid` finds exactly the ended copy of the unique
live stream that carried it. -/
theorem find?_id_after_updateFirst (sid : ℕ) (now : ℚ) :
    ∀ l : List StreamDoc, (l.map (·.id)).Nodup →
      ∀ s ∈ l, s.id = sid → s.status = LifeStatus.live →
      (updateFirst (fun t => decide (t.id = sid) && decide (t.status = LifeStatus.live))
        (fun t => { t with status := .ended, ended_at := some now }) l).find?
        (fun t => decide (t.id = sid)) =
        some { s with status := LifeStatus.ended, ended_at := some now } := by
  intro l
  induction l with
  | nil => intro _ s hs; exact absurd hs (List.not_mem_nil s)
  | cons x l ih =>
    intro hnd s hs hsid hlive
    rw [List.map_cons, List.nodup_cons] at hnd
    rcases List.mem_cons.mp hs with h1 | h1
    · subst h1
      rw [updateFirst_cons_pos (by simp [hsid, hlive])]
      exact List.find?_cons_of_pos _ (by simp [hsid])
    · have hxid : ¬ x.id = sid := by
        intro hx
        exact hnd.1 (by rw [hx, ← hsid]; exact List.mem_map_of_mem _ h1)
      rw [updateFirst_cons_neg (by simp [hxid])]
      rw [List.find?_cons_of_neg _ (by simp [hxid])]
      exact ih hnd.2 s h1 hsid hlive

/-- If every live member of event `E` carries id `sid`, then after
`end_stream`'s status update no live member of `E` remains. -/
theorem liveMembers_empty_after_last_end (E sid : ℕ) (now : ℚ) :
    ∀ l : List StreamDoc, (l.map (·.id)).Nodup →
      (∀ t ∈ l, t.event_id = some E → t.status = LifeStatus.live → t.id = sid) →
      liveMembers (updateFirst (fun t => decide (t.id = sid) && decide (t.status = LifeStatus.live))
        (fun t => { t with status := .ended, ended_at := some now }) l) E = [] := by
  intro l
  induction l with
  | nil => intro _ _; rfl
  | cons x l ih =>
    intro hnd hall
    rw [List.map_cons, List.nodup_cons] at hnd
    have htail : ∀ t ∈ l, t.event_id = some E → t.status = LifeStatus.live → t.id = sid :=
      fun t ht => hall t (List.mem_cons_of_mem _ ht)
    by_cases hp : (decide (x.id = sid) && decide (x.status = LifeStatus.live)) = true
    · simp only [updateFirst, hp, if_true]
      simp only [Bool.and_eq_true, decide_eq_true_eq] at hp
      rw [liveMembers, List.filter_cons_of_neg (by simp)]
      rw [List.filter_eq_nil_iff]
      intro y hy hpy
      simp only [Bool.and_eq_true, decide_eq_true_eq] at hpy
      exact hnd.1 (by rw [hp.1, ← htail y hy hpy.1 hpy.2]; exact List.mem_map_of_mem _ hy)
    · simp only [updateFirst, hp, Bool.false_eq_true, if_false]
      rw [liveMembers, List.filter_cons_of_neg, ← liveMembers]
      · exact ih hnd.2 htail
      · intro hcon
        simp only [Bool.and_eq_true, decide_eq_true_eq] at hcon
        exact hp (by simp [hall x (List.mem_cons_self x l) hcon.1 hcon.2,
          hcon.2])

/-- C4: ending the last live member stream of an event marks the event
`ended` and stamps its `ended_at`; ending a stream whose event still has
another live member leaves the event store completely untouched (status,
centroid and `stream_count` stay as last written). -/
theorem end_stream_event_transition (st : ServerState) (now : ℚ) (sid E : ℕ)
    (hnd : (st.streams.map (·.id)).Nodup) (hnde : (st.events.map (·.id)).Nodup)
    (s : StreamDoc) (hs : s ∈ st.streams) (hsid : s.id = sid)
    (hlive : s.status = LifeStatus.live) (hE : s.event_id = some E) :
    ((∀ t ∈ st.streams, t.event_id = some E → t.status = LifeStatus.live → t.id = sid) →
      ∀ e ∈ st.events, e.id = E →
        { e with status := LifeStatus.ended, ended_at := some now } ∈
          (end_stream st now sid).1.events) ∧
    ((∃ t ∈ st.streams, t.event_id = some E ∧ t.status = LifeStatus.live ∧ t.id ≠ sid) →
      (end_stream st now sid).1.events = st.events) := by
  have hfind : ¬ (st.streams.find? fun t =>
      decide (t.id = sid) && decide (t.status = LifeStatus.live)).isNone = true := by
    have h2 : (st.streams.find? fun t =>
        decide (t.id = sid) && decide (t.status = LifeStatus.live)).isSome = true := by
      rw [List.find?_isSome]
      exact ⟨s, hs, by simp [hsid, hlive]⟩
    obtain ⟨a, ha⟩ := Option.isSome_iff_exists.mp h2
    rw [ha]
    simp
  have hdoc := find?_id_after_updateFirst sid now st.streams hnd s hs hsid hlive
  constructor
  · intro hlast e he heE
    have hempty := liveMembers_empty_after_last_end E sid now st.streams hnd hlast
    have hfe := find?_key_eq_some (fun x : EventDoc => x.id) E st.events hnde e he heE
    unfold end_stream
    rw [if_neg hfind]
    dsimp only
    rw [hdoc]
    dsimp only
    rw [hE]
    dsimp only
    rw [if_pos (by rw [hempty]; rfl)]
    dsimp only
    exact updateFirst_of_find? _ _ _ e hfe
  · rintro ⟨t, ht, htE, htlive, htid⟩
    have htmem : t ∈ updateFirst (fun u => decide (u.id = sid) && decide (u.status = LifeStatus.live))
        (fun u => { u with status := LifeStatus.ended, ended_at := some now }) st.streams := by
      apply mem_updateFirst_of_not_pred
      · exact ht
      · simp [htid]
    have hne : (liveMembers (updateFirst
        (fun u => decide (u.id = sid) && decide (u.status = LifeStatus.live))
        (fun u => { u with status := LifeStatus.ended, ended_at := some now }) st.streams)
          E).length ≠ 0 := by
      intro h0
      have hnil := List.eq_nil_of_length_eq_zero h0
      have : t ∈ liveMembers (updateFirst
          (fun u => decide (u.id = sid) && decide (u.status = LifeStatus.live))
          (fun u => { u with status := LifeStatus.ended, ended_at := some now }) st.streams) E := by
        rw [liveMembers, List.mem_filter]
        exact ⟨htmem, by simp [htE, htlive]⟩
      rw [hnil] at this
      exact List.not_mem_nil t this
    unfold end_stream
    rw [if_neg hfind]
    dsimp only
    rw [hdoc]
    dsimp only
    rw [hE]
    dsimp only
    rw [if_neg hne]

/-! ### C9: no neighbor within 50 m means no event assignment -/

/-- If every other live, in-window stream is farther than 50 m by the
haversine test, the clustering engine assigns nothing and leaves the store
unchanged — regardless of what the bbox prefilter admitted. -/
theorem assign_none_of_no_near (st' : ServerState) (now : ℚ) (sdoc : StreamDoc)
    (h : ∀ s ∈ st'.streams, s.id ≠ sdoc.id → s.status = LifeStatus.live →
        s.started_at ≥ now - 600 →
        ¬ haversine_distance_m sdoc.lat sdoc.lng s.lat s.lng ≤ 50) :
    assign_event_for_stream st' now sdoc = (st', none) := by
  unfold assign_event_for_stream
  dsimp only
  rw [if_pos]
  rw [List.isEmpty_iff, List.filter_eq_nil_iff]
  intro s hs
  have hs1 : s ∈ st'.streams.filter
      (isCandidate now (bbox_from_center sdoc.lat sdoc.lng 60) sdoc.id) :=
    List.take_subset 100 _ hs
  rw [List.mem_filter] at hs1
  have hcand := hs1.2
  unfold isCandidate at hcand
  simp only [Bool.and_eq_true, decide_eq_true_eq] at hcand
  simp only [decide_eq_true_eq]
  exact h s hs1.1 hcand.2 hcand.1.1.1.1.1.1 hcand.1.1.1.1.1.2

/-- C9: if no other live stream that started within the last 10 minutes lies
within 50 m true great-circle distance of the newly created stream, the
creation response carries no event id and the stored stream record keeps
`event_id = null`.  The hypothesis constrains only the authoritative 50 m
haversine test; the 60 m bbox is just a prefilter of it. -/
theorem create_stream_unassigned_when_no_neighbor (st : ServerState) (now : ℚ)
    (p : StreamCreatePayload) (u : ℕ)
    (hids : ∀ s ∈ st.streams, s.id < st.next)
    (hfar : ∀ s ∈ st.streams, s.status = LifeStatus.live → s.started_at ≥ now - 600 →
      haversine_distance_m p.lat p.lng s.lat s.lng > 50) :
    (create_stream st now p u).2.event_id = none ∧
    ∀ t ∈ (create_stream st now p u).1.streams, t.id = st.next → t.event_id = none := by
  have hassign : assign_event_for_stream
      { streams :=
          st.streams ++
            [{ id := st.next, lat := p.lat, lng := p.lng, started_at := now,
               ended_at := none, event_id := none, status := LifeStatus.live,
               privacy_mode := p.privacy_mode }],
        events := st.events, next := st.next + 1 } now
      { id := st.next, lat := p.lat, lng := p.lng, started_at := now,
        ended_at := none, event_id := none, status := LifeStatus.live,
        privacy_mode := p.privacy_mode } =
      ({ streams :=
           st.streams ++
             [{ id := st.next, lat := p.lat, lng := p.lng, started_at := now,
                ended_at := none, event_id := none, status := LifeStatus.live,
                privacy_mode := p.privacy_mode }],
         events := st.events, next := st.next + 1 }, none) := by
    apply assign_none_of_no_near
    intro s hs hne hlive hrecent
    rcases List.mem_append.mp hs with h1 | h1
    · exact not_le_of_gt (hfar s h1 hlive hrecent)
    · rw [List.mem_singleton] at h1
      exact absurd (congrArg (·.id) h1) hne
  have hstr : (create_stream st now p u).1.streams =
      st.streams ++
        [{ id := st.next, lat := p.lat, lng := p.lng, started_at := now,
           ended_at := none, event_id := none, status := LifeStatus.live,
           privacy_mode := p.privacy_mode }] := by
    unfold create_stream
    dsimp only
    rw [hassign]
  constructor
  · show (create_stream st now p u).2.event_id = none
    unfold create_stream
    dsimp only
    rw [hassign]
  · intro t ht htid
    rw [hstr] at ht
    rcases List.mem_append.mp ht with h1 | h1
    · exact absurd htid (Nat.ne_of_lt (hids t h1))
    · rw [List.mem_singleton] at h1
      rw [h1]

/-! ### C8: the range query's InvalidRange condition and interval filter -/

/-- C8: `get_events_range` fails with `InvalidRange` exactly when the
effective `from` (defaulting to `now - 1h`) exceeds the effective `to`
(defaulting to `now`); otherwise (bbox absent, and with the store within the
1000-result page limit) it returns exactly the events whose `created_at`
lies in the closed interval `[from, to]`. -/
theorem get_events_range_invalid_iff (st : ServerState) (now : ℚ)
    (from_ts to_ts : Option ℚ) (bbox : Option BBoxParam)
    (hlen : st.events.length ≤ 1000) :
    (get_events_range st now from_ts to_ts bbox = .error .InvalidRange ↔
      from_ts.getD (now - 3600) > to_ts.getD now) ∧
    (bbox = none → ¬ from_ts.getD (now - 3600) > to_ts.getD now →
      ∃ l, get_events_range st now from_ts to_ts bbox = .ok l ∧
        ∀ e, e ∈ l ↔ e ∈ st.events ∧
          from_ts.getD (now - 3600) ≤ e.created_at ∧ e.created_at ≤ to_ts.getD now) := by
  by_cases hgt : from_ts.getD (now - 3600) > to_ts.getD now
  · constructor
    · rw [get_events_range]
      rw [if_pos hgt]
      simp [hgt]
    · intro _ hcon
      exact absurd hgt hcon
  · have hresult : ∀ l, get_events_range st now from_ts to_ts none = .ok l →
        ∀ e, e ∈ l ↔ e ∈ st.events ∧
          from_ts.getD (now - 3600) ≤ e.created_at ∧ e.created_at ≤ to_ts.getD now := by
      intro l hl e
      rw [get_events_range] at hl
      rw [if_neg hgt] at hl
      dsimp only at hl
      cases hl
      have hperm := List.perm_insertionSort
        (fun e1 e2 : EventDoc => e2.created_at ≤ e1.created_at)
        (st.events.filter fun e => decide (from_ts.getD (now - 3600) ≤ e.created_at) &&
          decide (e.created_at ≤ to_ts.getD now))
      have hlen2 : ((st.events.filter fun e =>
          decide (from_ts.getD (now - 3600) ≤ e.created_at) &&
          decide (e.created_at ≤ to_ts.getD now)).insertionSort
            (fun e1 e2 : EventDoc => e2.created_at ≤ e1.created_at)).length ≤ 1000 := by
      -- sorted list has the length of the filtered list, itself at most the store size
        rw [hperm.length_eq]
        exact le_trans (List.length_filter_le _ _) hlen
      rw [List.take_of_length_le hlen2]
      rw [hperm.mem_iff, List.mem_filter]
      simp
    constructor
    · constructor
      · intro herr
        rw [get_events_range] at herr
        rw [if_neg hgt] at herr
        rcases bbox with _ | bb
        · dsimp only at herr
          exact absurd herr (by simp)
        · rcases bb with bb4 | _
          · dsimp only at herr
            exact absurd herr (by simp)
          · dsimp only at herr
            exact absurd herr (by simp)
      · intro hcon
        exact absurd hcon hgt
    · intro hb _
      subst hb
      have hok : ∃ l, get_events_range st now from_ts to_ts none = .ok l := by
        rw [get_events_range]
        rw [if_neg hgt]
        exact ⟨_, rfl⟩
      obtain ⟨l, hl⟩ := hok
      exact ⟨l, hl, hresult l hl⟩

/-! ### Concrete equatorial geometry facts used by the example runs -/

theorem bbox_at_equator (c : ℝ) :
    bbox_from_center 0 c 60 =
      ⟨0 - 60 / 111320, c - 60 / 111320, 0 + 60 / 111320, c + 60 / 111320⟩ := by
  unfold bbox_from_center
  rw [radians_zero, Real.cos_zero]
  norm_num

/-- Equatorial streams at most 0.0004 degrees of longitude apart are within
the 50 m clustering radius. -/
theorem haversine_equator_le_50 (a b : ℝ) (h1 : a ≤ b) (h2 : b - a ≤ 0.0004) :
    haversine_distance_m 0 a 0 b ≤ 50 := by
  rw [haversine_equator a b h1 (by linarith)]
  have hpi := Real.pi_lt_d2
  have hpi0 := Real.pi_pos
  nlinarith

/-- Equatorial streams at least 0.0008 degrees of longitude apart are beyond
the 50 m clustering radius. -/
theorem haversine_equator_gt_50 (a b : ℝ) (h1 : a ≤ b) (h2 : 0.0008 ≤ b - a)
    (h3 : b - a < 180) : haversine_distance_m 0 a 0 b > 50 := by
  rw [haversine_equator a b h1 h3]
  have hpi := Real.pi_gt_d2
  nlinarith

/-! ### Example runs on the equator (used for counterexamples and witnesses) -/

/-- An equatorial stream document (latitude 0, started at time 0). -/
def exDoc (i : ℕ) (lng : ℝ) (ev : Option ℕ) : StreamDoc :=
  { id := i, lat := 0, lng := lng, started_at := 0, ended_at := none,
    event_id := ev, status := .live, privacy_mode := .exact }

/-- An equatorial creation payload with exact privacy. -/
def exPayload (lng : ℝ) : StreamCreatePayload := ⟨0, lng, .exact⟩

theorem stepC1 : create_stream initialState 0 (exPayload 0) 0 =
    (⟨[exDoc 0 0 none], [], 1⟩, ⟨0, 0, 0, 0, none, none, .live, .exact⟩) := by
  simp [create_stream, assign_event_for_stream, isCandidate, initialState,
    exDoc, exPayload, mask_location, liveMembers, updateFirst]

theorem stepC2 : create_stream ⟨[exDoc 0 0 none], [], 1⟩ 0 (exPayload 0) 0 =
    (⟨[exDoc 0 0 (some 2), exDoc 1 0 (some 2)],
      [⟨2, 0, 0, 50, 0, none, 2, .live⟩], 3⟩,
     ⟨1, 0, 0, 0, none, some 2, .live, .exact⟩) := by
  norm_num [create_stream, assign_event_for_stream, isCandidate, bbox_at_equator,
    haversine_self, exDoc, exPayload, mask_location, liveMembers, updateFirst,
    decide_eq_true_eq]

theorem stepC3 : create_stream ⟨[exDoc 0 0 (some 2), exDoc 1 0 (some 2)],
      [⟨2, 0, 0, 50, 0, none, 2, .live⟩], 3⟩ 0 (exPayload 0.0008) 0 =
    (⟨[exDoc 0 0 (some 2), exDoc 1 0 (some 2), exDoc 3 0.0008 none],
      [⟨2, 0, 0, 50, 0, none, 2, .live⟩], 4⟩,
     ⟨3, 0, 0.0008, 0, none, none, .live, .exact⟩) := by
  norm_num [create_stream, assign_event_for_stream, isCandidate, bbox_at_equator,
    haversine_self, exDoc, exPayload, mask_location, liveMembers, updateFirst,
    decide_eq_true_eq]

theorem stepC4 : create_stream ⟨[exDoc 0 0 (some 2), exDoc 1 0 (some 2), exDoc 3 0.0008 none],
      [⟨2, 0, 0, 50, 0, none, 2, .live⟩], 4⟩ 0 (exPayload 0.0004) 0 =
    (⟨[exDoc 0 0 (some 2), exDoc 1 0 (some 2), exDoc 3 0.0008 none,
        exDoc 4 0.0004 (some 2)],
      [⟨2, 0, 1 / 7500, 50, 0, none, 3, .live⟩], 5⟩,
     ⟨4, 0, 0.0004, 0, none, some 2, .live, .exact⟩) := by
  have hn1 : haversine_distance_m 0 (1 / 2500) 0 0 ≤ 50 := by
    rw [haversine_comm]
    exact haversine_equator_le_50 0 (1 / 2500) (by norm_num) (by norm_num)
  have hn2 : haversine_distance_m 0 (1 / 2500) 0 (1 / 1250) ≤ 50 :=
    haversine_equator_le_50 (1 / 2500) (1 / 1250) (by norm_num) (by norm_num)
  have hd : (decide ((none : Option ℕ) = some 2)) = false := by rfl
  have hd2 : (decide ((some 2 : Option ℕ) = some 2)) = true := by rfl
  norm_num [create_stream, assign_event_for_stream, isCandidate, bbox_at_equator,
    haversine_self, hn1, hn2, hn1.not_lt, hn2.not_lt, exDoc, exPayload, mask_location,
    liveMembers, updateFirst, decide_eq_true_eq, hd, hd2]

theorem stepB2 : create_stream ⟨[exDoc 0 0 none], [], 1⟩ 0 (exPayload 0.0008) 0 =
    (⟨[exDoc 0 0 none, exDoc 1 0.0008 none], [], 2⟩,
     ⟨1, 0, 0.0008, 0, none, none, .live, .exact⟩) := by
  norm_num [create_stream, assign_event_for_stream, isCandidate, bbox_at_equator,
    haversine_self, exDoc, exPayload, mask_location, liveMembers, updateFirst,
    decide_eq_true_eq]

theorem stepB3 : create_stream ⟨[exDoc 0 0 none, exDoc 1 0.0008 none], [], 2⟩ 0
      (exPayload 0.0004) 0 =
    (⟨[exDoc 0 0 (some 3), exDoc 1 0.0008 (some 3), exDoc 2 0.0004 (some 3)],
      [⟨3, 0, 1 / 2500, 50, 0, none, 3, .live⟩], 4⟩,
     ⟨2, 0, 0.0004, 0, none, some 3, .live, .exact⟩) := by
  have hn1 : haversine_distance_m 0 (1 / 2500) 0 0 ≤ 50 := by
    rw [haversine_comm]
    exact haversine_equator_le_50 0 (1 / 2500) (by norm_num) (by norm_num)
  have hn2 : haversine_distance_m 0 (1 / 2500) 0 (1 / 1250) ≤ 50 :=
    haversine_equator_le_50 (1 / 2500) (1 / 1250) (by norm_num) (by norm_num)
  norm_num [create_stream, assign_event_for_stream, isCandidate, bbox_at_equator,
    haversine_self, hn1, hn2, hn1.not_lt, hn2.not_lt, exDoc, exPayload, mask_location,
    liveMembers, updateFirst, decide_eq_true_eq]

theorem stepA3 : end_stream ⟨[exDoc 0 0 (some 2), exDoc 1 0 (some 2)],
      [⟨2, 0, 0, 50, 0, none, 2, .live⟩], 3⟩ 0 0 =
    (⟨[{ id := 0, lat := 0, lng := 0, started_at := 0, ended_at := some 0,
         event_id := some 2, status := .ended, privacy_mode := .exact },
       exDoc 1 0 (some 2)],
      [⟨2, 0, 0, 50, 0, none, 2, .live⟩], 3⟩, .ok ()) := by
  have hd2 : (decide ((some 2 : Option ℕ) = some 2)) = true := by rfl
  norm_num [end_stream, liveMembers, updateFirst, exDoc, decide_eq_true_eq, hd2]

/-! ### C1, C2, C3: claims as stated, refuted on concrete runs -/

/-- One event is consistent with its live member set: `stream_count` is the
count of live streams referencing it and the centroid is the arithmetic mean
of their raw coordinates. -/
def EventConsistent (st : ServerState) (e : EventDoc) : Prop :=
  e.stream_count = (liveMembers st.streams e.id).length ∧
  e.centroid_lat = ((liveMembers st.streams e.id).map (·.lat)).sum /
    (liveMembers st.streams e.id).length ∧
  e.centroid_lng = ((liveMembers st.streams e.id).map (·.lng)).sum /
    (liveMembers st.streams e.id).length

/-- The derived-aggregates invariant of C1, for every live event of a store. -/
def DerivedInv (st : ServerState) : Prop :=
  ∀ e ∈ st.events, e.status = LifeStatus.live → EventConsistent st e

theorem runA_eq : run initialState [Op.create 0 (exPayload 0) 0,
      Op.create 0 (exPayload 0) 0, Op.stop 0 0] =
    ⟨[{ id := 0, lat := 0, lng := 0, started_at := 0, ended_at := some 0,
        event_id := some 2, status := .ended, privacy_mode := .exact },
      exDoc 1 0 (some 2)],
     [⟨2, 0, 0, 50, 0, none, 2, .live⟩], 3⟩ := by
  simp only [run, runOp, stepC1, stepC2, stepA3]

/-- C1 counterexample: the claimed invariant — after any sequence of stream
creations and ends every live event's `stream_count`/centroid agree with its
live member set — is false: ending one of the two members of a two-stream
event leaves the event `live` with `stream_count = 2` while only one live
stream references it. -/
theorem derived_invariant_claim_false :
    ¬ ∀ ops : List Op, DerivedInv (run initialState ops) := by
  intro h
  have h3 := h [Op.create 0 (exPayload 0) 0, Op.create 0 (exPayload 0) 0, Op.stop 0 0]
  rw [runA_eq] at h3
  have hc := h3 ⟨2, 0, 0, 50, 0, none, 2, .live⟩ (by simp) rfl
  have hcount := hc.1
  have hd2 : (decide ((some 2 : Option ℕ) = some 2)) = true := by rfl
  have hd3 : (decide (LifeStatus.ended = LifeStatus.live)) = false := by rfl
  have hd4 : (decide (LifeStatus.live = LifeStatus.live)) = true := by rfl
  norm_num [liveMembers, exDoc, hd2, hd3, hd4, EventConsistent] at hcount

theorem runB_eq : run initialState [Op.create 0 (exPayload 0) 0,
      Op.create 0 (exPayload 0.0008) 0, Op.create 0 (exPayload 0.0004) 0] =
    ⟨[exDoc 0 0 (some 3), exDoc 1 0.0008 (some 3), exDoc 2 0.0004 (some 3)],
     [⟨3, 0, 1 / 2500, 50, 0, none, 3, .live⟩], 4⟩ := by
  simp only [run, runOp, stepC1, stepB2, stepB3]

/-- The property C2 claims: streams farther apart than 50 m that started
within 10 minutes of each other never end up carrying the same non-null
event id, whatever sequence of creations ran. -/
def noFalseClusteringClaim : Prop :=
  ∀ (ops : List Op) (s1 s2 : StreamDoc),
    s1 ∈ (run initialState ops).streams → s2 ∈ (run initialState ops).streams →
    haversine_distance_m s1.lat s1.lng s2.lat s2.lng > 50 →
    |s1.started_at - s2.started_at| ≤ 600 →
    ∀ E : ℕ, ¬ (s1.event_id = some E ∧ s2.event_id = some E)

/-- C2 counterexample: two streams 89 m apart (equator longitudes 0 and
0.0008°), created within the 10-minute window, are folded into one shared
event by a third stream created between them at longitude 0.0004°, since a
brand-new event absorbs every spatial neighbor of the joining stream. -/
theorem no_false_clustering_claim_false : ¬ noFalseClusteringClaim := by
  intro h
  have hfar : haversine_distance_m 0 0 0 0.0008 > 50 :=
    haversine_equator_gt_50 0 0.0008 (by norm_num) (by norm_num) (by norm_num)
  have h2 := h [Op.create 0 (exPayload 0) 0, Op.create 0 (exPayload 0.0008) 0,
      Op.create 0 (exPayload 0.0004) 0]
    (exDoc 0 0 (some 3)) (exDoc 1 0.0008 (some 3))
    (by rw [runB_eq]; simp) (by rw [runB_eq]; simp)
    (by simpa [exDoc] using hfar) (by simp [exDoc]) 3
  exact h2 ⟨rfl, rfl⟩

theorem runC3_eq : run initialState [Op.create 0 (exPayload 0) 0,
      Op.create 0 (exPayload 0) 0, Op.create 0 (exPayload 0.0008) 0] =
    ⟨[exDoc 0 0 (some 2), exDoc 1 0 (some 2), exDoc 3 0.0008 none],
     [⟨2, 0, 0, 50, 0, none, 2, .live⟩], 4⟩ := by
  simp only [run, runOp, stepC1, stepC2, stepC3]

/-- The property C3 claims: when a stream is created within 50 m and
10 minutes of a live stream, the creation response carries a non-null event
id that is either the live neighbor's existing event id, or a freshly minted
id (one no existing event carries) now shared with that neighbor. -/
def clusteringThresholdClaim : Prop :=
  ∀ (ops : List Op) (now : ℚ) (p : StreamCreatePayload) (u : ℕ) (first : StreamDoc),
    first ∈ (run initialState ops).streams → first.status = LifeStatus.live →
    0 ≤ now - first.started_at → now - first.started_at ≤ 600 →
    haversine_distance_m p.lat p.lng first.lat first.lng ≤ 50 →
    ∃ E : ℕ, (create_stream (run initialState ops) now p u).2.event_id = some E ∧
      (first.event_id = some E ∨
        (first.event_id = none ∧ (∀ e ∈ (run initialState ops).events, e.id ≠ E) ∧
          ∃ t ∈ (create_stream (run initialState ops) now p u).1.streams,
            t.id = first.id ∧ t.event_id = some E))

/-- C3 counterexample: the new stream at longitude 0.0004° is within 50 m of
the unassigned live stream at 0.0008°, but its creation response carries the
id of the pre-existing event of two other neighbors at longitude 0 — an id
that is neither the first stream's (it stays `null`) nor newly minted. -/
theorem clustering_threshold_claim_false : ¬ clusteringThresholdClaim := by
  intro h
  have hnear : haversine_distance_m 0 0.0004 0 0.0008 ≤ 50 :=
    haversine_equator_le_50 0.0004 0.0008 (by norm_num) (by norm_num)
  have h2 := h [Op.create 0 (exPayload 0) 0, Op.create 0 (exPayload 0) 0,
      Op.create 0 (exPayload 0.0008) 0] 0 (exPayload 0.0004) 0 (exDoc 3 0.0008 none)
    (by rw [runC3_eq]; simp) (by simp [exDoc]) (by simp [exDoc]) (by simp [exDoc])
    (by simpa [exDoc, exPayload] using hnear)
  obtain ⟨E, hresp, hcase⟩ := h2
  rw [runC3_eq] at hresp
  rw [stepC4] at hresp
  have hE : E = 2 := by
    have := hresp
    simp at this
    omega
  subst hE
  rcases hcase with hcase | hcase
  · exact absurd hcase (by simp [exDoc])
  · have hfresh := hcase.2.1
    rw [runC3_eq] at hfresh
    exact absurd rfl (hfresh ⟨2, 0, 0, 50, 0, none, 2, .live⟩ (by simp))

/-! ### C2 (amended): no false clustering without a bridging stream -/

/-- Full state shape of a creation that finds no 50 m neighbor. -/
theorem create_stream_eq_of_no_near (st : ServerState) (now : ℚ)
    (p : StreamCreatePayload) (u : ℕ)
    (hfar : ∀ s ∈ st.streams, s.id ≠ st.next →
      ¬ haversine_distance_m p.lat p.lng s.lat s.lng ≤ 50) :
    create_stream st now p u =
      ({ streams :=
           st.streams ++
             [{ id := st.next, lat := p.lat, lng := p.lng, started_at := now,
                ended_at := none, event_id := none, status := LifeStatus.live,
                privacy_mode := p.privacy_mode }],
         events := st.events, next := st.next + 1 },
       { id := st.next, lat := (mask_location p.lat p.lng p.privacy_mode u).1,
         lng := (mask_location p.lat p.lng p.privacy_mode u).2, started_at := now,
         ended_at := none, event_id := none, status := LifeStatus.live,
         privacy_mode := p.privacy_mode }) := by
  have hassign : assign_event_for_stream
      { streams :=
          st.streams ++
            [{ id := st.next, lat := p.lat, lng := p.lng, started_at := now,
               ended_at := none, event_id := none, status := LifeStatus.live,
               privacy_mode := p.privacy_mode }],
        events := st.events, next := st.next + 1 } now
      { id := st.next, lat := p.lat, lng := p.lng, started_at := now,
        ended_at := none, event_id := none, status := LifeStatus.live,
        privacy_mode := p.privacy_mode } =
      ({ streams :=
           st.streams ++
             [{ id := st.next, lat := p.lat, lng := p.lng, started_at := now,
                ended_at := none, event_id := none, status := LifeStatus.live,
                privacy_mode := p.privacy_mode }],
         events := st.events, next := st.next + 1 }, none) := by
    apply assign_none_of_no_near
    intro s hs hne _ _
    rcases List.mem_append.mp hs with h1 | h1
    · exact hfar s h1 hne
    · rw [List.mem_singleton] at h1
      exact absurd (congrArg (·.id) h1) hne
  unfold create_stream
  dsimp only
  rw [hassign]

/-- C2 (amended): for two streams farther apart than 50 m started within
10 minutes of each other, creating just the two of them (no other streams in
the store) never produces a shared non-null event id — both stay unassigned. -/
theorem no_false_clustering_two_streams (t1 t2 : ℚ) (p1 p2 : StreamCreatePayload)
    (u1 u2 : ℕ)
    (hfar : haversine_distance_m p2.lat p2.lng p1.lat p1.lng > 50)
    (hwin : |t1 - t2| ≤ 600) :
    (create_stream initialState t1 p1 u1).2.event_id = none ∧
    (create_stream (create_stream initialState t1 p1 u1).1 t2 p2 u2).2.event_id = none ∧
    ∀ s ∈ (create_stream (create_stream initialState t1 p1 u1).1 t2 p2 u2).1.streams,
      s.event_id = none := by
  have h1 := create_stream_eq_of_no_near initialState t1 p1 u1
    (by intro s hs; exact absurd hs (List.not_mem_nil s))
  have h2 := create_stream_eq_of_no_near (create_stream initialState t1 p1 u1).1 t2 p2 u2
    (by
      rw [h1]
      intro s hs hne
      rcases List.mem_append.mp hs with hA | hA
      · exact absurd hA (List.not_mem_nil s)
      · rw [List.mem_singleton] at hA
        rw [hA]
        exact not_le_of_gt hfar)
  refine ⟨by rw [h1], by rw [h2], ?_⟩
  intro s hs
  rw [h2, h1] at hs
  dsimp only at hs
  rcases List.mem_append.mp hs with hA | hA
  · rcases List.mem_append.mp hA with hB | hB
    · exact absurd hB (List.not_mem_nil s)
    · rw [List.mem_singleton] at hB
      rw [hB]
  · rw [List.mem_singleton] at hA
    rw [hA]

/-! ### Concrete witnesses -/

theorem no_false_clustering_two_streams_witness :
    haversine_distance_m 0 0.001 0 0 > 50 ∧ |(0:ℚ) - 0| ≤ 600 ∧
    (create_stream (create_stream initialState 0 (exPayload 0) 0).1 0
      (exPayload 0.001) 0).2.event_id = none := by
  have hfar : haversine_distance_m 0 0.001 0 0 > 50 := by
    rw [haversine_comm]
    exact haversine_equator_gt_50 0 0.001 (by norm_num) (by norm_num) (by norm_num)
  exact ⟨hfar, by norm_num,
    (no_false_clustering_two_streams 0 0 (exPayload 0) (exPayload 0.001) 0 0
      (by simpa [exPayload] using hfar) (by norm_num)).2.1⟩

theorem end_stream_event_transition_witness :
    (exDoc 1 0 (some 2)).event_id = some 2 ∧ (exDoc 1 0 (some 2)).id ≠ 0 ∧
    (end_stream (⟨[exDoc 0 0 (some 2), exDoc 1 0 (some 2)],
      [⟨2, 0, 0, 50, 0, none, 2, .live⟩], 3⟩ : ServerState) 0 0).1.events =
      [⟨2, 0, 0, 50, 0, none, 2, .live⟩] := by
  refine ⟨by simp [exDoc], by simp [exDoc], ?_⟩
  exact (end_stream_event_transition
    ⟨[exDoc 0 0 (some 2), exDoc 1 0 (some 2)], [⟨2, 0, 0, 50, 0, none, 2, .live⟩], 3⟩
    0 0 2 (by simp [exDoc]) (by simp) (exDoc 0 0 (some 2)) (by simp)
    (by simp [exDoc]) (by simp [exDoc]) (by simp [exDoc])).2
    ⟨exDoc 1 0 (some 2), by simp, by simp [exDoc], by simp [exDoc], by simp [exDoc]⟩

theorem end_stream_success_then_notfound_witness :
    (end_stream (⟨[exDoc 0 0 (some 2), exDoc 1 0 (some 2)],
      [⟨2, 0, 0, 50, 0, none, 2, .live⟩], 3⟩ : ServerState) 0 0).2 = .ok () ∧
    (end_stream (end_stream (⟨[exDoc 0 0 (some 2), exDoc 1 0 (some 2)],
      [⟨2, 0, 0, 50, 0, none, 2, .live⟩], 3⟩ : ServerState) 0 0).1 1 0).2 =
      .error .NotFound := by
  have h := (end_stream_success_then_notfound
    ⟨[exDoc 0 0 (some 2), exDoc 1 0 (some 2)], [⟨2, 0, 0, 50, 0, none, 2, .live⟩], 3⟩
    0 1 0 (by simp [exDoc])).1
    ⟨exDoc 0 0 (some 2), by simp, by simp [exDoc], by simp [exDoc]⟩
  exact ⟨h.1, h.2.2⟩

theorem get_events_range_invalid_iff_witness :
    (⟨[], [⟨7, 0, 0, 50, 10, none, 1, .live⟩], 8⟩ : ServerState).events.length ≤ 1000 ∧
    ((get_events_range (⟨[], [⟨7, 0, 0, 50, 10, none, 1, .live⟩], 8⟩ : ServerState)
        5000 (some 0) (some 20) none = .error .InvalidRange ↔
      (some (0:ℚ)).getD (5000 - 3600) > (some (20:ℚ)).getD 5000) ∧
    (none = (none : Option BBoxParam) →
      ¬ (some (0:ℚ)).getD (5000 - 3600) > (some (20:ℚ)).getD 5000 →
      ∃ l, get_events_range (⟨[], [⟨7, 0, 0, 50, 10, none, 1, .live⟩], 8⟩ : ServerState)
          5000 (some 0) (some 20) none = .ok l ∧
        ∀ e, e ∈ l ↔
          e ∈ (⟨[], [⟨7, 0, 0, 50, 10, none, 1, .live⟩], 8⟩ : ServerState).events ∧
          (some (0:ℚ)).getD (5000 - 3600) ≤ e.created_at ∧
          e.created_at ≤ (some (20:ℚ)).getD 5000)) :=
  ⟨by norm_num,
   get_events_range_invalid_iff ⟨[], [⟨7, 0, 0, 50, 10, none, 1, .live⟩], 8⟩
     5000 (some 0) (some 20) none (by norm_num)⟩

theorem create_stream_unassigned_witness :
    (∀ s ∈ (⟨[exDoc 0 0 none], [], 1⟩ : ServerState).streams,
      haversine_distance_m 0 0.001 s.lat s.lng > 50) ∧
    (create_stream (⟨[exDoc 0 0 none], [], 1⟩ : ServerState) 0
      (exPayload 0.001) 0).2.event_id = none := by
  have hfar : ∀ s ∈ (⟨[exDoc 0 0 none], [], 1⟩ : ServerState).streams,
      haversine_distance_m 0 0.001 s.lat s.lng > 50 := by
    intro s hs
    rw [List.mem_singleton] at hs
    rw [hs]
    show haversine_distance_m 0 0.001 (exDoc 0 0 none).lat (exDoc 0 0 none).lng > 50
    rw [show (exDoc 0 0 none).lat = 0 from rfl, show (exDoc 0 0 none).lng = 0 from rfl]
    rw [haversine_comm]
    exact haversine_equator_gt_50 0 0.001 (by norm_num) (by norm_num) (by norm_num)
  exact ⟨hfar, (create_stream_unassigned_when_no_neighbor
    ⟨[exDoc 0 0 none], [], 1⟩ 0 (exPayload 0.001) 0
    (by intro s hs; rw [List.mem_singleton] at hs; rw [hs]; norm_num [exDoc])
    (fun s hs _ _ => hfar s hs)).1⟩

/-! ### C3 (amended): the response event id on a successful neighbor test -/

theorem create_stream_response_event_id (st : ServerState) (now : ℚ)
    (p : StreamCreatePayload) (u : ℕ) :
    (create_stream st now p u).2.event_id =
      (assign_event_for_stream
        { streams :=
            st.streams ++
              [{ id := st.next, lat := p.lat, lng := p.lng, started_at := now,
                 ended_at := none, event_id := none, status := LifeStatus.live,
                 privacy_mode := p.privacy_mode }],
          events := st.events, next := st.next + 1 } now
        { id := st.next, lat := p.lat, lng := p.lng, started_at := now,
          ended_at := none, event_id := none, status := LifeStatus.live,
          privacy_mode := p.privacy_mode }).2 := by
  rfl

theorem create_stream_state_streams (st : ServerState) (now : ℚ)
    (p : StreamCreatePayload) (u : ℕ) :
    (create_stream st now p u).1.streams =
      (match (assign_event_for_stream
          { streams :=
              st.streams ++
                [{ id := st.next, lat := p.lat, lng := p.lng, started_at := now,
                   ended_at := none, event_id := none, status := LifeStatus.live,
                   privacy_mode := p.privacy_mode }],
            events := st.events, next := st.next + 1 } now
          { id := st.next, lat := p.lat, lng := p.lng, started_at := now,
            ended_at := none, event_id := none, status := LifeStatus.live,
            privacy_mode := p.privacy_mode }).2 with
      | some eid => updateFirst (fun s => decide (s.id = st.next))
          (fun s => { s with event_id := some eid })
          (assign_event_for_stream
            { streams :=
                st.streams ++
                  [{ id := st.next, lat := p.lat, lng := p.lng, started_at := now,
                     ended_at := none, event_id := none, status := LifeStatus.live,
                     privacy_mode := p.privacy_mode }],
              events := st.events, next := st.next + 1 } now
            { id := st.next, lat := p.lat, lng := p.lng, started_at := now,
              ended_at := none, event_id := none, status := LifeStatus.live,
              privacy_mode := p.privacy_mode }).1.streams
      | none => (assign_event_for_stream
          { streams :=
              st.streams ++
                [{ id := st.next, lat := p.lat, lng := p.lng, started_at := now,
                   ended_at := none, event_id := none, status := LifeStatus.live,
                   privacy_mode := p.privacy_mode }],
            events := st.events, next := st.next + 1 } now
          { id := st.next, lat := p.lat, lng := p.lng, started_at := now,
            ended_at := none, event_id := none, status := LifeStatus.live,
            privacy_mode := p.privacy_mode }).1.streams) := by
  unfold create_stream
  dsimp only
  split <;> simp_all

/-- C3 (amended): when a live stream within the 10-minute window passes both
the 60 m bbox prefilter and the authoritative 50 m haversine test against a
newly created stream (and the store is inside the 100-candidate page limit),
the creation response carries a non-null event id E; E is either an event id
already carried by some existing stream (a join — possibly of an event the
first stream does not belong to), or the newly minted id `st.next + 1`, which
is then also assigned to the first stream. -/
theorem clustering_threshold_amended (st : ServerState) (now : ℚ)
    (p : StreamCreatePayload) (u : ℕ) (first : StreamDoc)
    (hids : ∀ s ∈ st.streams, s.id < st.next)
    (hlen : st.streams.length ≤ 100)
    (hfirst : first ∈ st.streams) (hlive : first.status = LifeStatus.live)
    (hwin : first.started_at ≥ now - 600)
    (hbox1 : (bbox_from_center p.lat p.lng 60).min_lat ≤ first.lat)
    (hbox2 : first.lat ≤ (bbox_from_center p.lat p.lng 60).max_lat)
    (hbox3 : (bbox_from_center p.lat p.lng 60).min_lng ≤ first.lng)
    (hbox4 : first.lng ≤ (bbox_from_center p.lat p.lng 60).max_lng)
    (hnear : haversine_distance_m p.lat p.lng first.lat first.lng ≤ 50) :
    ∃ E : ℕ, (create_stream st now p u).2.event_id = some E ∧
      ((∃ t ∈ st.streams, t.event_id = some E) ∨
        (E = st.next + 1 ∧
          ∃ t ∈ (create_stream st now p u).1.streams,
            t.id = first.id ∧ t.event_id = some E)) := by
  have hcand : ((st.streams ++
        ([{ id := st.next, lat := p.lat, lng := p.lng, started_at := now,
             ended_at := none, event_id := none, status := LifeStatus.live,
             privacy_mode := p.privacy_mode }] : List StreamDoc)).filter
          (isCandidate now (bbox_from_center p.lat p.lng 60) st.next)).take 100 =
      st.streams.filter (isCandidate now (bbox_from_center p.lat p.lng 60) st.next) := by
    rw [List.filter_append]
    have hsd : ((
        [{ id := st.next, lat := p.lat, lng := p.lng, started_at := now,
            ended_at := none, event_id := none, status := LifeStatus.live,
            privacy_mode := p.privacy_mode }] : List StreamDoc).filter
          (isCandidate now (bbox_from_center p.lat p.lng 60) st.next)) = [] := by
      simp [isCandidate]
    rw [hsd, List.append_nil]
    apply List.take_of_length_le
    exact le_trans (List.length_filter_le _ _) hlen
  have hfc : first ∈ st.streams.filter
      (isCandidate now (bbox_from_center p.lat p.lng 60) st.next) := by
    rw [List.mem_filter]
    refine ⟨hfirst, ?_⟩
    unfold isCandidate
    have hne : first.id ≠ st.next := Nat.ne_of_lt (hids first hfirst)
    simp [hlive, hwin, hbox1, hbox2, hbox3, hbox4, hne]
  have hfn : first ∈ (st.streams.filter
      (isCandidate now (bbox_from_center p.lat p.lng 60) st.next)).filter
        (fun s => decide (haversine_distance_m p.lat p.lng s.lat s.lng ≤ 50)) := by
    rw [List.mem_filter]
    exact ⟨hfc, by simp [hnear]⟩
  have hne_nil : ¬ ((st.streams.filter
      (isCandidate now (bbox_from_center p.lat p.lng 60) st.next)).filter
        (fun s => decide (haversine_distance_m p.lat p.lng s.lat s.lng ≤ 50))).isEmpty = true := by
    rw [List.isEmpty_iff]
    exact List.ne_nil_of_mem hfn
  rw [create_stream_response_event_id]
  unfold assign_event_for_stream
  dsimp only
  rw [hcand, if_neg hne_nil]
  cases hfind : (((st.streams.filter
        (isCandidate now (bbox_from_center p.lat p.lng 60) st.next)).filter
          (fun s => decide (haversine_distance_m p.lat p.lng s.lat s.lng ≤ 50))).find?
            fun s => s.event_id.isSome).bind (fun x => x.event_id) with
  | some E' =>
    refine ⟨E', rfl, Or.inl ?_⟩
    obtain ⟨t, hts, htE⟩ := Option.bind_eq_some.mp hfind
    have htmem := List.mem_of_find?_eq_some hts
    rw [List.mem_filter] at htmem
    rw [List.mem_filter] at htmem
    exact ⟨t, htmem.1.1, htE⟩
  | none =>
    refine ⟨st.next + 1, rfl, Or.inr ⟨rfl, ?_⟩⟩
    rw [create_stream_state_streams]
    unfold assign_event_for_stream
    dsimp only
    rw [hcand, if_neg hne_nil, hfind]
    dsimp only
    refine ⟨{ first with event_id := some (st.next + 1) }, ?_, rfl, rfl⟩
    refine mem_updateFirst_of_not_pred _ _ _ _ ?_ ?_
    · apply List.mem_map.mpr
      refine ⟨first, List.mem_append_left _ hfirst, ?_⟩
      rw [if_pos]
      apply List.mem_map.mpr
      exact ⟨first, List.mem_cons_of_mem _ hfn, rfl⟩
    · show ¬ (decide (first.id = st.next)) = true
      simp [Nat.ne_of_lt (hids first hfirst)]

theorem clustering_threshold_amended_witness :
    haversine_distance_m (exPayload 0).lat (exPayload 0).lng
      (exDoc 0 0 none).lat (exDoc 0 0 none).lng ≤ 50 ∧
    (∃ E : ℕ, (create_stream (⟨[exDoc 0 0 none], [], 1⟩ : ServerState) 0
        (exPayload 0) 0).2.event_id = some E ∧
      ((∃ t ∈ (⟨[exDoc 0 0 none], [], 1⟩ : ServerState).streams, t.event_id = some E) ∨
        (E = 1 + 1 ∧
          ∃ t ∈ (create_stream (⟨[exDoc 0 0 none], [], 1⟩ : ServerState) 0
              (exPayload 0) 0).1.streams,
            t.id = (exDoc 0 0 none).id ∧ t.event_id = some E))) := by
  constructor
  · norm_num [exPayload, exDoc, haversine_self]
  · exact clustering_threshold_amended ⟨[exDoc 0 0 none], [], 1⟩ 0 (exPayload 0) 0
      (exDoc 0 0 none)
      (by intro s hs; rw [List.mem_singleton] at hs; rw [hs]; norm_num [exDoc])
      (by norm_num)
      (List.mem_singleton.mpr rfl) (by simp [exDoc]) (by norm_num [exDoc])
      (by norm_num [exPayload, exDoc, bbox_at_equator])
      (by norm_num [exPayload, exDoc, bbox_at_equator])
      (by norm_num [exPayload, exDoc, bbox_at_equator])
      (by norm_num [exPayload, exDoc, bbox_at_equator])
      (by norm_num [exPayload, exDoc, haversine_self])

/-! ### C5: bounds for the location mask -/

theorem atan2_of_pos (y x : ℝ) (hx : 0 < x) : atan2 y x = Real.arctan (y / x) := by
  rw [atan2, if_pos hx]

theorem arctan_le_self_of_nonneg (x : ℝ) (hx : 0 ≤ x) : Real.arctan x ≤ x := by
  rcases eq_or_lt_of_le hx with h | h
  · rw [← h, Real.arctan_zero]
  · have h1 : 0 < Real.arctan x := by
      rw [← Real.arctan_zero]
      exact Real.arctan_strictMono h
    have h2 := Real.lt_tan h1 (Real.arctan_lt_pi_div_two x)
    rw [Real.tan_arctan] at h2
    exact h2.le

theorem lt_arctan_of_tan_lt (x y : ℝ) (hy1 : -(Real.pi / 2) < y) (hy2 : y < Real.pi / 2)
    (h : Real.tan y < x) : y < Real.arctan x := by
  have h2 := Real.arctan_strictMono h
  rwa [Real.arctan_tan hy1 hy2] at h2

/-- Pointwise Lipschitz bound for the cosine. -/
theorem abs_cos_sub_cos_le_abs (x y : ℝ) : |Real.cos x - Real.cos y| ≤ |x - y| := by
  rw [Real.cos_sub_cos]
  rw [abs_mul, abs_mul]
  have h1 : |(-2 : ℝ)| = 2 := by norm_num
  rw [h1]
  have h2 := Real.abs_sin_le_one ((x + y) / 2)
  have h3 := Real.abs_sin_le_abs (x := (x - y) / 2)
  have h4 : |(x - y) / 2| = |x - y| / 2 := by
    rw [abs_div]
    norm_num
  rw [h4] at h3
  have h5 : (0:ℝ) ≤ |Real.sin ((x - y) / 2)| := abs_nonneg _
  nlinarith [abs_nonneg (Real.sin ((x + y) / 2))]

/-! ### C1: the derived-aggregates invariant under safe operation sequences -/

theorem mem_updateFirst {α : Type} (p : α → Bool) (f : α → α) :
    ∀ l : List α, ∀ x ∈ updateFirst p f l, x ∈ l ∨ ∃ y ∈ l, p y = true ∧ x = f y := by
  intro l
  induction l with
  | nil => intro x hx; exact absurd hx (List.not_mem_nil x)
  | cons a l ih =>
    intro x hx
    by_cases hpa : p a = true
    · rw [updateFirst_cons_pos hpa] at hx
      rcases List.mem_cons.mp hx with h1 | h1
      · exact Or.inr ⟨a, List.mem_cons_self a l, hpa, h1⟩
      · exact Or.inl (List.mem_cons_of_mem a h1)
    · rw [updateFirst_cons_neg hpa] at hx
      rcases List.mem_cons.mp hx with h1 | h1
      · exact Or.inl (h1 ▸ List.mem_cons_self a l)
      · rcases ih x h1 with h2 | ⟨y, hy, hpy, hxy⟩
        · exact Or.inl (List.mem_cons_of_mem a h2)
        · exact Or.inr ⟨y, List.mem_cons_of_mem a hy, hpy, hxy⟩

theorem updateFirst_eq_self {α : Type} (p : α → Bool) (f : α → α) :
    ∀ l : List α, (∀ x ∈ l, p x = true → f x = x) → updateFirst p f l = l := by
  intro l
  induction l with
  | nil => intro _; rfl
  | cons a l ih =>
    intro h
    by_cases hpa : p a = true
    · rw [updateFirst_cons_pos hpa, h a (List.mem_cons_self a l) hpa]
    · rw [updateFirst_cons_neg hpa, ih (fun x hx => h x (List.mem_cons_of_mem a hx))]

/-- With pairwise-distinct keys, an element of `updateFirst` on a key match is
either an untouched element with a different key or the rewrite of a matched
element. -/
theorem updateFirst_key_char {α : Type} (key : α → ℕ) (k : ℕ) (f : α → α) :
    ∀ l : List α, (l.map key).Nodup →
      ∀ x ∈ updateFirst (fun y => decide (key y = k)) f l,
        (x ∈ l ∧ key x ≠ k) ∨ ∃ y ∈ l, key y = k ∧ x = f y := by
  intro l
  induction l with
  | nil => intro _ x hx; exact absurd hx (List.not_mem_nil x)
  | cons a l ih =>
    intro hnd x hx
    rw [List.map_cons, List.nodup_cons] at hnd
    by_cases hka : key a = k
    · rw [updateFirst_cons_pos (by simp [hka])] at hx
      rcases List.mem_cons.mp hx with h1 | h1
      · exact Or.inr ⟨a, List.mem_cons_self a l, hka, h1⟩
      · refine Or.inl ⟨List.mem_cons_of_mem a h1, ?_⟩
        intro hxk
        exact hnd.1 (by rw [hka, ← hxk]; exact List.mem_map_of_mem _ h1)
    · rw [updateFirst_cons_neg (by simp [hka])] at hx
      rcases List.mem_cons.mp hx with h1 | h1
      · subst h1
        exact Or.inl ⟨List.mem_cons_self x l, hka⟩
      · rcases ih hnd.2 x h1 with ⟨h2, h3⟩ | ⟨y, hy, hky, hxy⟩
        · exact Or.inl ⟨List.mem_cons_of_mem a h2, h3⟩
        · exact Or.inr ⟨y, List.mem_cons_of_mem a hy, hky, hxy⟩

/-- If the first match and its rewrite both fail a filter, the filter ignores
the update. -/
theorem filter_updateFirst_both_false {α : Type} (P p : α → Bool) (f : α → α) :
    ∀ l : List α, (∀ x ∈ l, p x = true → P x = false ∧ P (f x) = false) →
      (updateFirst p f l).filter P = l.filter P := by
  intro l
  induction l with
  | nil => intro _; rfl
  | cons a l ih =>
    intro h
    by_cases hpa : p a = true
    · rw [updateFirst_cons_pos hpa]
      have ha := h a (List.mem_cons_self a l) hpa
      rw [List.filter_cons, List.filter_cons, ha.1, ha.2]
      simp
    · rw [updateFirst_cons_neg hpa, List.filter_cons, List.filter_cons,
        ih (fun x hx => h x (List.mem_cons_of_mem a hx))]

/-- A pointwise-invariant filter ignores a map that fixes every element it
keeps. -/
theorem filter_map_invariant {α : Type} (P : α → Bool) (f : α → α) :
    ∀ l : List α, (∀ x ∈ l, P (f x) = P x ∧ (P x = true → f x = x)) →
      (l.map f).filter P = l.filter P := by
  intro l
  induction l with
  | nil => intro _; rfl
  | cons a l ih =>
    intro h
    rw [List.map_cons, List.filter_cons, List.filter_cons, (h a (List.mem_cons_self a l)).1,
      ih (fun x hx => h x (List.mem_cons_of_mem a hx))]
    by_cases hPa : P a = true
    · simp [hPa, (h a (List.mem_cons_self a l)).2 hPa]
    · simp [hPa]

theorem filter_map_eq_map_filter {α : Type} (P Q : α → Bool) (f : α → α) :
    ∀ l : List α, (∀ x ∈ l, P (f x) = Q x) →
      (l.map f).filter P = (l.filter Q).map f := by
  intro l
  induction l with
  | nil => intro _; rfl
  | cons a l ih =>
    intro h
    rw [List.map_cons, List.filter_cons, List.filter_cons,
      (h a (List.mem_cons_self a l)), ih (fun x hx => h x (List.mem_cons_of_mem a hx))]
    by_cases hQa : Q a = true
    · simp [hQa]
    · simp [hQa]

theorem streamdoc_set_event_self (x : StreamDoc) (E : ℕ) (h : x.event_id = some E) :
    ({ x with event_id := some E } : StreamDoc) = x := by
  cases x
  simp_all

/-- The stream document inserted by `create_stream`. -/
def newStreamDoc (st : ServerState) (now : ℚ) (p : StreamCreatePayload) : StreamDoc :=
  { id := st.next, lat := p.lat, lng := p.lng, started_at := now,
    ended_at := none, event_id := none, status := LifeStatus.live,
    privacy_mode := p.privacy_mode }

/-- The store right after `create_stream`'s insert, before clustering runs. -/
def insertState (st : ServerState) (now : ℚ) (p : StreamCreatePayload) : ServerState :=
  { st with streams := st.streams ++ [newStreamDoc st now p], next := st.next + 1 }

open Classical in
/-- The authoritative 50 m neighbor set computed by `assign_event_for_stream`. -/
noncomputable def nearbyOf (st : ServerState) (now : ℚ) (sdoc : StreamDoc) :
    List StreamDoc :=
  ((st.streams.filter
      (isCandidate now (bbox_from_center sdoc.lat sdoc.lng 60) sdoc.id)).take 100).filter
    fun s => decide (haversine_distance_m sdoc.lat sdoc.lng s.lat s.lng ≤ 50)

/-- The store produced by the join branch of `assign_event_for_stream`. -/
noncomputable def joinState (st : ServerState) (sid E : ℕ) : ServerState :=
  let streams1 := updateFirst (fun s => decide (s.id = sid))
    (fun s => { s with event_id := some E }) st.streams
  let event_streams := (liveMembers streams1 E).take 100
  { st with
    streams := streams1,
    events :=
      if event_streams.isEmpty then st.events
      else updateFirst (fun e => decide (e.id = E))
        (fun e => { e with
          centroid_lat := (event_streams.map (·.lat)).sum / event_streams.length,
          centroid_lng := (event_streams.map (·.lng)).sum / event_streams.length,
          stream_count := event_streams.length }) st.events }

/-- The store produced by the new-event branch of `assign_event_for_stream`. -/
noncomputable def newEventState (st : ServerState) (now : ℚ) (sdoc : StreamDoc) :
    ServerState :=
  let participants := sdoc :: nearbyOf st now sdoc
  let edoc : EventDoc :=
    { id := st.next
      centroid_lat := (participants.map (·.lat)).sum / participants.length
      centroid_lng := (participants.map (·.lng)).sum / participants.length
      radius_meters := 50
      created_at := now
      ended_at := none
      stream_count := participants.length
      status := .live }
  let ids : List ℕ := participants.map (·.id)
  { streams := st.streams.map fun s =>
      if s.id ∈ ids then { s with event_id := some st.next } else s,
    events := st.events ++ [edoc], next := st.next + 1 }

theorem assign_eq_of_empty (st : ServerState) (now : ℚ) (sdoc : StreamDoc)
    (h : (nearbyOf st now sdoc).isEmpty = true) :
    assign_event_for_stream st now sdoc = (st, none) := by
  unfold nearbyOf at h
  unfold assign_event_for_stream
  dsimp only
  rw [h]
  rfl

theorem assign_eq_join (st : ServerState) (now : ℚ) (sdoc : StreamDoc) (E : ℕ)
    (h1 : (nearbyOf st now sdoc).isEmpty = false)
    (h2 : ((nearbyOf st now sdoc).find? fun s => s.event_id.isSome).bind (·.event_id) =
      some E) :
    assign_event_for_stream st now sdoc = (joinState st sdoc.id E, some E) := by
  unfold nearbyOf at h1 h2
  unfold assign_event_for_stream
  dsimp only
  rw [h1, h2]
  rfl

theorem assign_eq_new (st : ServerState) (now : ℚ) (sdoc : StreamDoc)
    (h1 : (nearbyOf st now sdoc).isEmpty = false)
    (h2 : ((nearbyOf st now sdoc).find? fun s => s.event_id.isSome).bind (·.event_id) =
      none) :
    assign_event_for_stream st now sdoc = (newEventState st now sdoc, some st.next) := by
  unfold nearbyOf at h1 h2
  unfold assign_event_for_stream
  dsimp only
  rw [h1, h2]
  rfl

theorem create_stream_state_eq (st : ServerState) (now : ℚ) (p : StreamCreatePayload)
    (u : ℕ) :
    (create_stream st now p u).1 =
      (match (assign_event_for_stream (insertState st now p) now
          (newStreamDoc st now p)).2 with
       | some eid =>
         { (assign_event_for_stream (insertState st now p) now (newStreamDoc st now p)).1
             with
           streams := updateFirst (fun s => decide (s.id = st.next))
             (fun s => { s with event_id := some eid })
             (assign_event_for_stream (insertState st now p) now
               (newStreamDoc st now p)).1.streams }
       | none => (assign_event_for_stream (insertState st now p) now
           (newStreamDoc st now p)).1) := rfl

theorem nearbyOf_sublist (st : ServerState) (now : ℚ) (sdoc : StreamDoc) :
    List.Sublist (nearbyOf st now sdoc) st.streams :=
  (List.filter_sublist _).trans ((List.take_sublist _ _).trans (List.filter_sublist _))

theorem nearbyOf_live (st : ServerState) (now : ℚ) (sdoc : StreamDoc) :
    ∀ t ∈ nearbyOf st now sdoc, t.status = LifeStatus.live ∧ t.id ≠ sdoc.id := by
  intro t ht
  have h1 := List.mem_filter.mp ht
  have h2 := List.mem_of_mem_take h1.1
  have h3 := List.mem_filter.mp h2
  have hc := h3.2
  simp only [isCandidate, Bool.and_eq_true, decide_eq_true_eq] at hc
  exact ⟨hc.1.1.1.1.1.1, hc.2⟩

/-- A stop is safe when the targeted live stream is unassigned or the last
live member of its event. -/
def SafeStop (st : ServerState) (sid : ℕ) : Prop :=
  ∀ s ∈ st.streams, s.id = sid → s.status = LifeStatus.live →
    ∀ E, s.event_id = some E → (liveMembers st.streams E).length ≤ 1

/-- Every stop in the sequence is safe at its point of execution. -/
def SafeRun : ServerState → List Op → Prop
  | _, [] => True
  | st, Op.create now p u :: ops => SafeRun (runOp st (Op.create now p u)) ops
  | st, Op.stop now sid :: ops =>
      SafeStop st sid ∧ SafeRun (runOp st (Op.stop now sid)) ops

/-- Number of creations in an operation sequence. -/
def numCreates : List Op → ℕ
  | [] => 0
  | Op.create _ _ _ :: ops => numCreates ops + 1
  | Op.stop _ _ :: ops => numCreates ops

theorem insertState_streams (st : ServerState) (now : ℚ) (p : StreamCreatePayload) :
    (insertState st now p).streams = st.streams ++ [newStreamDoc st now p] := rfl

theorem insertState_wf (st : ServerState) (now : ℚ) (p : StreamCreatePayload)
    (hwf : WF st) : WF (insertState st now p) := by
  obtain ⟨h1, h2, h3, h4, h5⟩ := hwf
  refine ⟨?_, h2, ?_, ?_, ?_⟩
  · rw [insertState_streams, List.map_append, List.nodup_append]
    refine ⟨h1, List.nodup_singleton _, ?_⟩
    intro x hx hx2
    simp only [newStreamDoc, List.map_cons, List.map_nil, List.mem_singleton] at hx2
    subst hx2
    rcases List.mem_map.mp hx with ⟨s, hs, hsid⟩
    exact absurd (hsid ▸ h3 s hs) (lt_irrefl _)
  · intro s hs
    rw [insertState_streams] at hs
    rcases List.mem_append.mp hs with h | h
    · exact Nat.lt_succ_of_lt (h3 s h)
    · rw [List.mem_singleton] at h
      subst h
      exact Nat.lt_succ_self _
  · intro e he
    exact Nat.lt_succ_of_lt (h4 e he)
  · intro s hs E hE
    rw [insertState_streams] at hs
    rcases List.mem_append.mp hs with h | h
    · exact Nat.lt_succ_of_lt (h5 s h E hE)
    · rw [List.mem_singleton] at h
      subst h
      exact absurd hE (by simp [newStreamDoc])

theorem liveMembers_insertState (st : ServerState) (now : ℚ) (p : StreamCreatePayload)
    (E : ℕ) :
    liveMembers (insertState st now p).streams E = liveMembers st.streams E := by
  rw [insertState_streams]
  show List.filter _ _ = _
  rw [List.filter_append]
  simp [newStreamDoc, liveMembers]

theorem insertState_inv (st : ServerState) (now : ℚ) (p : StreamCreatePayload)
    (hinv : DerivedInv st) : DerivedInv (insertState st now p) := by
  intro e he hel
  have hold := hinv e he hel
  unfold EventConsistent at hold ⊢
  rw [liveMembers_insertState]
  exact hold

theorem insertState_uniq (st : ServerState) (now : ℚ) (p : StreamCreatePayload)
    (hwf : WF st) :
    ∀ s ∈ (insertState st now p).streams, s.id = (newStreamDoc st now p).id →
      s = newStreamDoc st now p := by
  intro s hs hsid
  rw [insertState_streams] at hs
  rcases List.mem_append.mp hs with h | h
  · have := hwf.2.2.1 s h
    rw [hsid] at this
    exact absurd this (lt_irrefl _)
  · exact List.mem_singleton.mp h

theorem joinState_preserves (st : ServerState) (sdoc : StreamDoc) (E : ℕ)
    (hwf : WF st) (hinv : DerivedInv st) (hlen : st.streams.length ≤ 100)
    (hmem : sdoc ∈ st.streams) (hlive : sdoc.status = LifeStatus.live)
    (hnone : sdoc.event_id = none) (hE : E < st.next) :
    WF (joinState st sdoc.id E) ∧ DerivedInv (joinState st sdoc.id E) ∧
    (joinState st sdoc.id E).streams.length = st.streams.length ∧
    (joinState st sdoc.id E).next = st.next ∧
    (∀ s ∈ (joinState st sdoc.id E).streams, s.id = sdoc.id → s.event_id = some E) := by
  have huniq : ∀ s ∈ st.streams, s.id = sdoc.id → s = sdoc := by
    intro s hs hsid
    exact List.inj_on_of_nodup_map hwf.1 hs hmem hsid
  have hfind : st.streams.find? (fun s => decide (s.id = sdoc.id)) = some sdoc :=
    find?_key_eq_some (·.id) sdoc.id st.streams hwf.1 sdoc hmem rfl
  set streams1 := updateFirst (fun s => decide (s.id = sdoc.id))
    (fun s => { s with event_id := some E }) st.streams with hs1
  have hjs : (joinState st sdoc.id E).streams = streams1 := by rw [hs1]; rfl
  have hjn : (joinState st sdoc.id E).next = st.next := rfl
  have hmem1 : ({ sdoc with event_id := some E } : StreamDoc) ∈ streams1 := by
    rw [hs1]
    exact updateFirst_of_find? _ _ st.streams sdoc hfind
  have hmemlive : ({ sdoc with event_id := some E } : StreamDoc) ∈
      liveMembers streams1 E := by
    apply List.mem_filter.mpr
    refine ⟨hmem1, ?_⟩
    simp [hlive]
  have hlm_len : (liveMembers streams1 E).length ≤ 100 := by
    calc (liveMembers streams1 E).length ≤ streams1.length := List.length_filter_le _ _
      _ = st.streams.length := by rw [hs1]; exact updateFirst_length _ _ st.streams
      _ ≤ 100 := hlen
  have htake : (liveMembers streams1 E).take 100 = liveMembers streams1 E :=
    List.take_of_length_le hlm_len
  have hne_empty : (liveMembers streams1 E).isEmpty = false := by
    cases hlm : liveMembers streams1 E with
    | nil => exact absurd (hlm ▸ hmemlive) (List.not_mem_nil _)
    | cons a t => rfl
  have hjev : (joinState st sdoc.id E).events =
      updateFirst (fun e => decide (e.id = E))
        (fun e => { e with
          centroid_lat := ((liveMembers streams1 E).map (·.lat)).sum /
            (liveMembers streams1 E).length,
          centroid_lng := ((liveMembers streams1 E).map (·.lng)).sum /
            (liveMembers streams1 E).length,
          stream_count := (liveMembers streams1 E).length }) st.events := by
    show (if ((liveMembers streams1 E).take 100).isEmpty then st.events else _) = _
    rw [htake, hne_empty]
    simp only [Bool.false_eq_true, if_false]
  have hstmap : (updateFirst (fun s => decide (s.id = sdoc.id))
      (fun s => { s with event_id := some E }) st.streams).map (·.id) =
      st.streams.map (·.id) := updateFirst_map_eq (·.id)
    (fun s => decide (s.id = sdoc.id)) (fun s => { s with event_id := some E })
    (fun x => rfl) st.streams
  have hevmap : (updateFirst (fun e => decide (e.id = E))
      (fun e => { e with
        centroid_lat := ((liveMembers streams1 E).map (·.lat)).sum /
          (liveMembers streams1 E).length,
        centroid_lng := ((liveMembers streams1 E).map (·.lng)).sum /
          (liveMembers streams1 E).length,
        stream_count := (liveMembers streams1 E).length }) st.events).map (·.id) =
      st.events.map (·.id) := updateFirst_map_eq (·.id)
    (fun e => decide (e.id = E))
    (fun e => { e with
      centroid_lat := ((liveMembers streams1 E).map (·.lat)).sum /
        (liveMembers streams1 E).length,
      centroid_lng := ((liveMembers streams1 E).map (·.lng)).sum /
        (liveMembers streams1 E).length,
      stream_count := (liveMembers streams1 E).length })
    (fun x => rfl) st.events
  have hids1 : streams1.map (·.id) = st.streams.map (·.id) := by
    rw [hs1]; exact hstmap
  have hlast1 : ∀ s ∈ streams1, s.id = sdoc.id → s.event_id = some E := by
    intro s hs hsid
    rw [hs1] at hs
    rcases updateFirst_key_char (·.id) sdoc.id
        (fun s => { s with event_id := some E }) st.streams hwf.1 s hs with
      ⟨_, hne⟩ | ⟨y, _, _, hxy⟩
    · exact absurd hsid hne
    · rw [hxy]
  have hothers : ∀ E', E' ≠ E → liveMembers streams1 E' = liveMembers st.streams E' := by
    intro E' hne
    rw [hs1]
    show List.filter _ _ = List.filter _ _
    apply filter_updateFirst_both_false
    intro x hx hpx
    have hxid : x.id = sdoc.id := by simpa using hpx
    have hxeq : x = sdoc := huniq x hx hxid
    subst hxeq
    have hne' : E ≠ E' := Ne.symm hne
    constructor
    · simp [hnone]
    · simp [hne']
  have hwf1 : WF (joinState st sdoc.id E) := by
    refine ⟨?_, ?_, ?_, ?_, ?_⟩
    · rw [hjs, hids1]; exact hwf.1
    · rw [hjev, hevmap]; exact hwf.2.1
    · intro s hs
      rw [hjs, hs1] at hs
      rw [hjn]
      rcases mem_updateFirst _ _ st.streams s hs with h | ⟨y, hy, _, hxy⟩
      · exact hwf.2.2.1 s h
      · rw [hxy]; exact hwf.2.2.1 y hy
    · intro e he
      rw [hjev] at he
      rw [hjn]
      rcases mem_updateFirst _ _ st.events e he with h | ⟨y, hy, _, hxy⟩
      · exact hwf.2.2.2.1 e h
      · rw [hxy]; exact hwf.2.2.2.1 y hy
    · intro s hs E' hE'
      rw [hjs, hs1] at hs
      rw [hjn]
      rcases mem_updateFirst _ _ st.streams s hs with h | ⟨y, hy, _, hxy⟩
      · exact hwf.2.2.2.2 s h E' hE'
      · rw [hxy] at hE'
        have hEE : E = E' := by simpa using hE'
        rw [← hEE]; exact hE
  have hinv1 : DerivedInv (joinState st sdoc.id E) := by
    intro e he hel
    rw [hjev] at he
    rcases updateFirst_key_char (·.id) E _ st.events hwf.2.1 e he with
      ⟨hmem', hne⟩ | ⟨y, hy, hky, hey⟩
    · have hold := hinv e hmem' hel
      unfold EventConsistent at hold ⊢
      rw [hjs, hothers e.id hne]
      exact hold
    · subst hey
      unfold EventConsistent
      rw [hjs]
      refine ⟨?_, ?_, ?_⟩ <;> simp [hky]
  refine ⟨hwf1, hinv1, ?_, hjn, ?_⟩
  · rw [hjs, hs1]; exact updateFirst_length _ _ st.streams
  · intro s hs hsid
    rw [hjs] at hs
    exact hlast1 s hs hsid

theorem newEventState_preserves (st : ServerState) (now : ℚ) (sdoc : StreamDoc)
    (hwf : WF st) (hinv : DerivedInv st)
    (hmem : sdoc ∈ st.streams) (hlive : sdoc.status = LifeStatus.live)
    (hnone : sdoc.event_id = none)
    (hnear_none : ∀ t ∈ nearbyOf st now sdoc, t.event_id = none) :
    WF (newEventState st now sdoc) ∧ DerivedInv (newEventState st now sdoc) ∧
    (newEventState st now sdoc).streams.length = st.streams.length ∧
    (newEventState st now sdoc).next = st.next + 1 ∧
    (∀ s ∈ (newEventState st now sdoc).streams, s.id = sdoc.id →
      s.event_id = some st.next) := by
  have hsubl := nearbyOf_sublist st now sdoc
  have hnlive := nearbyOf_live st now sdoc
  have hstr : (newEventState st now sdoc).streams =
      st.streams.map (fun s =>
        if s.id ∈ (sdoc :: nearbyOf st now sdoc).map (·.id)
        then { s with event_id := some st.next } else s) := rfl
  have hev : (newEventState st now sdoc).events = st.events ++
      [{ id := st.next,
         centroid_lat := ((sdoc :: nearbyOf st now sdoc).map (·.lat)).sum /
           (sdoc :: nearbyOf st now sdoc).length,
         centroid_lng := ((sdoc :: nearbyOf st now sdoc).map (·.lng)).sum /
           (sdoc :: nearbyOf st now sdoc).length,
         radius_meters := 50, created_at := now, ended_at := none,
         stream_count := (sdoc :: nearbyOf st now sdoc).length,
         status := .live }] := rfl
  have hnx : (newEventState st now sdoc).next = st.next + 1 := rfl
  set nearby := nearbyOf st now sdoc with hneardef
  set parts := sdoc :: nearby with hpartsdef
  set ids : List ℕ := parts.map (·.id) with hidsdef
  have hid_ne : ∀ t ∈ nearby, t.id ≠ sdoc.id := fun t ht => (hnlive t ht).2
  have hnd_near : (nearby.map (·.id)).Nodup :=
    List.Nodup.sublist (hsubl.map (·.id)) hwf.1
  have hnd_ids : ids.Nodup := by
    rw [hidsdef, hpartsdef, List.map_cons, List.nodup_cons]
    refine ⟨?_, hnd_near⟩
    intro hcon
    rcases List.mem_map.mp hcon with ⟨t, ht, hts⟩
    exact hid_ne t ht hts
  have hparts_sub : ∀ q ∈ parts, q ∈ st.streams := by
    intro q hq
    rw [hpartsdef] at hq
    rcases List.mem_cons.mp hq with h | h
    · exact h ▸ hmem
    · exact hsubl.subset h
  have hparts_live : ∀ q ∈ parts, q.status = LifeStatus.live := by
    intro q hq
    rw [hpartsdef] at hq
    rcases List.mem_cons.mp hq with h | h
    · exact h ▸ hlive
    · exact (hnlive q h).1
  have hparts_none : ∀ q ∈ parts, q.event_id = none := by
    intro q hq
    rw [hpartsdef] at hq
    rcases List.mem_cons.mp hq with h | h
    · exact h ▸ hnone
    · exact hnear_none q h
  have hmem_iff : ∀ s ∈ st.streams, (s.id ∈ ids ↔ s ∈ parts) := by
    intro s hs
    constructor
    · intro hsid
      rw [hidsdef] at hsid
      rcases List.mem_map.mp hsid with ⟨q, hq, hqs⟩
      have heq : q = s := List.inj_on_of_nodup_map hwf.1 (hparts_sub q hq) hs hqs
      exact heq ▸ hq
    · intro hsp
      rw [hidsdef]
      exact List.mem_map_of_mem _ hsp
  have hrefs : ∀ x ∈ st.streams, x.event_id ≠ some st.next := by
    intro x hx hcon
    exact absurd (hwf.2.2.2.2 x hx st.next hcon) (lt_irrefl _)
  have hlm_new : liveMembers (newEventState st now sdoc).streams st.next =
      (st.streams.filter (fun s => decide (s.id ∈ ids))).map
        (fun s => if s.id ∈ ids then { s with event_id := some st.next } else s) := by
    rw [hstr]
    show List.filter _ _ = _
    apply filter_map_eq_map_filter
    intro x hx
    by_cases hxi : x.id ∈ ids
    · have hxl : x.status = LifeStatus.live := hparts_live x ((hmem_iff x hx).mp hxi)
      simp [hxi, hxl]
    · simp [hxi, hrefs x hx]
  have hfil_nodup : (st.streams.filter (fun s => decide (s.id ∈ ids))).Nodup :=
    (List.Nodup.of_map _ hwf.1).filter _
  have hparts_nodup : parts.Nodup := by
    apply List.Nodup.of_map (fun s : StreamDoc => s.id)
    rw [← hidsdef]
    exact hnd_ids
  have hperm : List.Perm (st.streams.filter (fun s => decide (s.id ∈ ids))) parts := by
    rw [List.perm_ext_iff_of_nodup hfil_nodup hparts_nodup]
    intro q
    constructor
    · intro hqf
      have hq := List.mem_filter.mp hqf
      exact (hmem_iff q hq.1).mp (by simpa using hq.2)
    · intro hqp
      refine List.mem_filter.mpr ⟨hparts_sub q hqp, ?_⟩
      simp only [decide_eq_true_eq]
      exact (hmem_iff q (hparts_sub q hqp)).mpr hqp
  have hlen_eq : (liveMembers (newEventState st now sdoc).streams st.next).length =
      parts.length := by
    rw [hlm_new, List.length_map]
    exact hperm.length_eq
  have hlat_eq : ((liveMembers (newEventState st now sdoc).streams st.next).map
      (·.lat)).sum = (parts.map (·.lat)).sum := by
    rw [hlm_new, List.map_map]
    have h1 : ∀ x ∈ st.streams.filter (fun s => decide (s.id ∈ ids)),
        ((fun t : StreamDoc => t.lat) ∘
          (fun s => if s.id ∈ ids then { s with event_id := some st.next } else s)) x
          = x.lat := by
      intro x _
      by_cases hxi : x.id ∈ ids <;> simp [hxi]
    rw [List.map_congr_left h1]
    exact (hperm.map (·.lat)).sum_eq
  have hlng_eq : ((liveMembers (newEventState st now sdoc).streams st.next).map
      (·.lng)).sum = (parts.map (·.lng)).sum := by
    rw [hlm_new, List.map_map]
    have h1 : ∀ x ∈ st.streams.filter (fun s => decide (s.id ∈ ids)),
        ((fun t : StreamDoc => t.lng) ∘
          (fun s => if s.id ∈ ids then { s with event_id := some st.next } else s)) x
          = x.lng := by
      intro x _
      by_cases hxi : x.id ∈ ids <;> simp [hxi]
    rw [List.map_congr_left h1]
    exact (hperm.map (·.lng)).sum_eq
  have hinv1 : DerivedInv (newEventState st now sdoc) := by
    intro e he hel
    rw [hev] at he
    rcases List.mem_append.mp he with h | h
    · have hold := hinv e h hel
      unfold EventConsistent at hold ⊢
      have hne : e.id ≠ st.next := fun hcon =>
        absurd (hcon ▸ hwf.2.2.2.1 e h) (lt_irrefl _)
      have hlm_same : liveMembers (newEventState st now sdoc).streams e.id =
          liveMembers st.streams e.id := by
        rw [hstr]
        show List.filter _ _ = List.filter _ _
        apply filter_map_invariant
        intro x hx
        by_cases hxi : x.id ∈ ids
        · have hxn : x.event_id = none := hparts_none x ((hmem_iff x hx).mp hxi)
          constructor
          · simp [hxi, hxn, Ne.symm hne]
          · intro hcon
            simp [hxn] at hcon
        · simp [hxi]
      rw [hlm_same]
      exact hold
    · rw [List.mem_singleton] at h
      subst h
      unfold EventConsistent
      dsimp only
      refine ⟨hlen_eq.symm, ?_, ?_⟩
      · rw [hlat_eq, hlen_eq]
      · rw [hlng_eq, hlen_eq]
  have hids_str : (newEventState st now sdoc).streams.map (·.id) =
      st.streams.map (·.id) := by
    rw [hstr, List.map_map]
    apply List.map_congr_left
    intro x _
    by_cases hxi : x.id ∈ ids <;> simp [hxi]
  have hwf1 : WF (newEventState st now sdoc) := by
    refine ⟨?_, ?_, ?_, ?_, ?_⟩
    · rw [hids_str]; exact hwf.1
    · rw [hev, List.map_append, List.nodup_append]
      refine ⟨hwf.2.1, List.nodup_singleton _, ?_⟩
      intro x hx hx2
      simp only [List.map_cons, List.map_nil, List.mem_singleton] at hx2
      subst hx2
      rcases List.mem_map.mp hx with ⟨e, he, heid⟩
      exact absurd (heid ▸ hwf.2.2.2.1 e he) (lt_irrefl _)
    · intro s hs
      rw [hstr] at hs
      rw [hnx]
      rcases List.mem_map.mp hs with ⟨x, hx, hxs⟩
      subst hxs
      have hx2 := hwf.2.2.1 x hx
      by_cases hxi : x.id ∈ ids <;> simp [hxi] <;> omega
    · intro e he
      rw [hev] at he
      rw [hnx]
      rcases List.mem_append.mp he with h | h
      · exact Nat.lt_succ_of_lt (hwf.2.2.2.1 e h)
      · rw [List.mem_singleton] at h
        subst h
        exact Nat.lt_succ_self _
    · intro s hs E hE
      rw [hstr] at hs
      rw [hnx]
      rcases List.mem_map.mp hs with ⟨x, hx, hxs⟩
      subst hxs
      by_cases hxi : x.id ∈ ids
      · have hEeq : E = st.next := by
          have := hE
          simp [hxi] at this
          exact this.symm
        omega
      · have hx2 := hwf.2.2.2.2 x hx E (by simpa [hxi] using hE)
        omega
  refine ⟨hwf1, hinv1, ?_, hnx, ?_⟩
  · rw [hstr]
    exact List.length_map _ _
  · intro s hs hsid
    rw [hstr] at hs
    rcases List.mem_map.mp hs with ⟨x, hx, hxs⟩
    subst hxs
    have hxid : x.id = sdoc.id := by
      by_cases hxi : x.id ∈ ids <;> simpa [hxi] using hsid
    have hxp : x.id ∈ ids := by
      rw [hidsdef, hpartsdef, hxid]
      exact List.mem_map_of_mem _ (List.mem_cons_self _ _)
    simp [hxp]

theorem create_preserves (st : ServerState) (now : ℚ) (p : StreamCreatePayload) (u : ℕ)
    (hwf : WF st) (hinv : DerivedInv st) (hlen : st.streams.length + 1 ≤ 100) :
    WF (create_stream st now p u).1 ∧ DerivedInv (create_stream st now p u).1 ∧
    (create_stream st now p u).1.streams.length = st.streams.length + 1 := by
  have hwf1 : WF (insertState st now p) := insertState_wf st now p hwf
  have hinv1 : DerivedInv (insertState st now p) := insertState_inv st now p hinv
  have hlen1 : (insertState st now p).streams.length = st.streams.length + 1 := by
    rw [insertState_streams, List.length_append]
    rfl
  have hmem : newStreamDoc st now p ∈ (insertState st now p).streams := by
    rw [insertState_streams]
    exact List.mem_append_right _ (List.mem_singleton_self _)
  by_cases hemp : (nearbyOf (insertState st now p) now (newStreamDoc st now p)).isEmpty
      = true
  · have hassign := assign_eq_of_empty _ now _ hemp
    rw [create_stream_state_eq, hassign]
    dsimp only
    exact ⟨hwf1, hinv1, hlen1⟩
  · rw [Bool.not_eq_true] at hemp
    cases hbind : ((nearbyOf (insertState st now p) now (newStreamDoc st now p)).find?
        fun s => s.event_id.isSome).bind (·.event_id) with
    | some E =>
      have hElt : E < (insertState st now p).next := by
        rcases Option.bind_eq_some.mp hbind with ⟨t, hfind, htE⟩
        have htmem : t ∈ nearbyOf (insertState st now p) now (newStreamDoc st now p) :=
          List.mem_of_find?_eq_some hfind
        exact hwf1.2.2.2.2 t ((nearbyOf_sublist _ _ _).subset htmem) E htE
      have hassign := assign_eq_join _ now _ E hemp hbind
      have hj := joinState_preserves (insertState st now p) (newStreamDoc st now p) E
        hwf1 hinv1 (by rw [hlen1]; exact hlen) hmem rfl rfl hElt
      rw [create_stream_state_eq, hassign]
      dsimp only
      have hpatch : updateFirst (fun s => decide (s.id = st.next))
          (fun s => { s with event_id := some E })
          (joinState (insertState st now p) (newStreamDoc st now p).id E).streams =
          (joinState (insertState st now p) (newStreamDoc st now p).id E).streams := by
        apply updateFirst_eq_self
        intro x hx hpx
        have hxid : x.id = (newStreamDoc st now p).id := by simpa using hpx
        have hxev := hj.2.2.2.2 x hx hxid
        exact streamdoc_set_event_self x E hxev
      rw [hpatch]
      refine ⟨hj.1, hj.2.1, ?_⟩
      show (joinState (insertState st now p) (newStreamDoc st now p).id E).streams.length
        = st.streams.length + 1
      rw [hj.2.2.1]
      exact hlen1
    | none =>
      have hfind_none : (nearbyOf (insertState st now p) now
          (newStreamDoc st now p)).find? (fun s => s.event_id.isSome) = none := by
        cases hf : (nearbyOf (insertState st now p) now
            (newStreamDoc st now p)).find? (fun s => s.event_id.isSome) with
        | none => rfl
        | some t =>
          have hts := List.find?_some hf
          rw [hf] at hbind
          simp only [Option.some_bind] at hbind
          rw [hbind] at hts
          simp at hts
      have hnear_none : ∀ t ∈ nearbyOf (insertState st now p) now
          (newStreamDoc st now p), t.event_id = none := by
        intro t ht
        have h2 := List.find?_eq_none.mp hfind_none t ht
        exact Option.not_isSome_iff_eq_none.mp (by simpa using h2)
      have hassign := assign_eq_new _ now _ hemp hbind
      have hn := newEventState_preserves (insertState st now p) now
        (newStreamDoc st now p) hwf1 hinv1 hmem rfl rfl hnear_none
      rw [create_stream_state_eq, hassign]
      dsimp only
      have hpatch : updateFirst (fun s => decide (s.id = st.next))
          (fun s => { s with event_id := some (insertState st now p).next })
          (newEventState (insertState st now p) now (newStreamDoc st now p)).streams =
          (newEventState (insertState st now p) now (newStreamDoc st now p)).streams := by
        apply updateFirst_eq_self
        intro x hx hpx
        have hxid : x.id = (newStreamDoc st now p).id := by simpa using hpx
        have hxev := hn.2.2.2.2 x hx hxid
        exact streamdoc_set_event_self x _ hxev
      rw [hpatch]
      refine ⟨hn.1, hn.2.1, ?_⟩
      show (newEventState (insertState st now p) now
        (newStreamDoc st now p)).streams.length = st.streams.length + 1
      rw [hn.2.2.1]
      exact hlen1

theorem stop_preserves (st : ServerState) (now : ℚ) (sid : ℕ)
    (hwf : WF st) (hinv : DerivedInv st) (hsafe : SafeStop st sid) :
    WF (end_stream st now sid).1 ∧ DerivedInv (end_stream st now sid).1 ∧
    (end_stream st now sid).1.streams.length = st.streams.length := by
  unfold end_stream
  dsimp only
  by_cases hfound : (st.streams.find? fun s =>
      decide (s.id = sid) && decide (s.status = LifeStatus.live)).isNone = true
  · rw [if_pos hfound]
    exact ⟨hwf, hinv, rfl⟩
  · rw [if_neg hfound]
    have hsome : ∃ s0, st.streams.find? (fun s =>
        decide (s.id = sid) && decide (s.status = LifeStatus.live)) = some s0 := by
      cases hf : st.streams.find? (fun s =>
          decide (s.id = sid) && decide (s.status = LifeStatus.live)) with
      | none => rw [hf] at hfound; simp at hfound
      | some s0 => exact ⟨s0, rfl⟩
    obtain ⟨s0, hs0⟩ := hsome
    have hs0mem : s0 ∈ st.streams := List.mem_of_find?_eq_some hs0
    have hs0p := List.find?_some hs0
    simp only [Bool.and_eq_true, decide_eq_true_eq] at hs0p
    obtain ⟨hs0id, hs0live⟩ := hs0p
    have huniq : ∀ x ∈ st.streams, x.id = sid → x = s0 :=
      fun x hx hxid => List.inj_on_of_nodup_map hwf.1 hx hs0mem (by rw [hxid, hs0id])
    have hmap1 : (updateFirst (fun s => decide (s.id = sid) &&
          decide (s.status = LifeStatus.live))
        (fun s => { s with status := LifeStatus.ended, ended_at := some now })
        st.streams).map (·.id) = st.streams.map (·.id) :=
      updateFirst_map_eq (·.id)
        (fun s => decide (s.id = sid) && decide (s.status = LifeStatus.live))
        (fun s => { s with status := LifeStatus.ended, ended_at := some now })
        (fun x => rfl) st.streams
    have hulen : (updateFirst (fun s => decide (s.id = sid) &&
          decide (s.status = LifeStatus.live))
        (fun s => { s with status := LifeStatus.ended, ended_at := some now })
        st.streams).length = st.streams.length := updateFirst_length _ _ st.streams
    have hb1 : ((updateFirst (fun s => decide (s.id = sid) &&
          decide (s.status = LifeStatus.live))
        (fun s => { s with status := LifeStatus.ended, ended_at := some now })
        st.streams).map (·.id)).Nodup := by rw [hmap1]; exact hwf.1
    have hb3 : ∀ s ∈ updateFirst (fun s => decide (s.id = sid) &&
          decide (s.status = LifeStatus.live))
        (fun s => { s with status := LifeStatus.ended, ended_at := some now })
        st.streams, s.id < st.next := by
      intro s hs
      rcases mem_updateFirst _ _ st.streams s hs with h | ⟨y, hy, _, hxy⟩
      · exact hwf.2.2.1 s h
      · rw [hxy]; exact hwf.2.2.1 y hy
    have hb5 : ∀ s ∈ updateFirst (fun s => decide (s.id = sid) &&
          decide (s.status = LifeStatus.live))
        (fun s => { s with status := LifeStatus.ended, ended_at := some now })
        st.streams, ∀ E', s.event_id = some E' → E' < st.next := by
      intro s hs E' hE'
      rcases mem_updateFirst _ _ st.streams s hs with h | ⟨y, hy, _, hxy⟩
      · exact hwf.2.2.2.2 s h E' hE'
      · rw [hxy] at hE'
        exact hwf.2.2.2.2 y hy E' hE'
    rw [find?_id_after_updateFirst sid now st.streams hwf.1 s0 hs0mem hs0id hs0live]
    dsimp only
    cases hEv : s0.event_id with
    | none =>
      dsimp only
      have hlm_all : ∀ E', liveMembers (updateFirst (fun s => decide (s.id = sid) &&
            decide (s.status = LifeStatus.live))
          (fun s => { s with status := LifeStatus.ended, ended_at := some now })
          st.streams) E' = liveMembers st.streams E' := by
        intro E'
        show List.filter _ _ = List.filter _ _
        apply filter_updateFirst_both_false
        intro x hx hpx
        simp only [Bool.and_eq_true, decide_eq_true_eq] at hpx
        have hxeq : x = s0 := huniq x hx hpx.1
        subst hxeq
        constructor
        · simp [hEv]
        · simp [hEv]
      refine ⟨⟨hb1, hwf.2.1, hb3, hwf.2.2.2.1, hb5⟩, ?_, hulen⟩
      intro e he hel
      have hold := hinv e he hel
      unfold EventConsistent at hold ⊢
      rw [hlm_all]
      exact hold
    | some E =>
      dsimp only
      have hle1 := hsafe s0 hs0mem hs0id hs0live E hEv
      have hs0lm : s0 ∈ liveMembers st.streams E :=
        List.mem_filter.mpr ⟨hs0mem, by simp [hEv, hs0live]⟩
      have hsingle : liveMembers st.streams E = [s0] := by
        have hpos : 0 < (liveMembers st.streams E).length :=
          List.length_pos_of_mem hs0lm
        have hlone : (liveMembers st.streams E).length = 1 := by omega
        rcases List.length_eq_one.mp hlone with ⟨a, ha⟩
        rw [ha] at hs0lm
        rw [List.mem_singleton] at hs0lm
        rw [ha, hs0lm]
      have hall : ∀ t ∈ st.streams, t.event_id = some E →
          t.status = LifeStatus.live → t.id = sid := by
        intro t ht hte htl
        have hm : t ∈ liveMembers st.streams E :=
          List.mem_filter.mpr ⟨ht, by simp [hte, htl]⟩
        rw [hsingle, List.mem_singleton] at hm
        rw [hm]
        exact hs0id
      have hempty := liveMembers_empty_after_last_end E sid now st.streams hwf.1 hall
      rw [hempty]
      have hred : ([] : List StreamDoc).length = 0 := rfl
      rw [if_pos hred]
      dsimp only
      have hevmap : (updateFirst (fun e => decide (e.id = E))
          (fun e => { e with status := LifeStatus.ended, ended_at := some now })
          st.events).map (·.id) = st.events.map (·.id) :=
        updateFirst_map_eq (·.id) (fun e => decide (e.id = E))
          (fun e => { e with status := LifeStatus.ended, ended_at := some now })
          (fun x => rfl) st.events
      have hlm_other : ∀ E', E' ≠ E → liveMembers (updateFirst
          (fun s => decide (s.id = sid) && decide (s.status = LifeStatus.live))
          (fun s => { s with status := LifeStatus.ended, ended_at := some now })
          st.streams) E' = liveMembers st.streams E' := by
        intro E' hne
        show List.filter _ _ = List.filter _ _
        apply filter_updateFirst_both_false
        intro x hx hpx
        simp only [Bool.and_eq_true, decide_eq_true_eq] at hpx
        have hxeq : x = s0 := huniq x hx hpx.1
        subst hxeq
        have hne2 : E ≠ E' := Ne.symm hne
        constructor
        · simp [hEv, hne2]
        · simp [hEv, hne2]
      refine ⟨⟨hb1, ?_, hb3, ?_, hb5⟩, ?_, hulen⟩
      · rw [hevmap]; exact hwf.2.1
      · intro e he
        rcases mem_updateFirst _ _ st.events e he with h | ⟨y, hy, _, hxy⟩
        · exact hwf.2.2.2.1 e h
        · rw [hxy]; exact hwf.2.2.2.1 y hy
      · intro e he hel
        rcases updateFirst_key_char (·.id) E
            (fun e => { e with status := LifeStatus.ended, ended_at := some now })
            st.events hwf.2.1 e he with ⟨hmem', hne⟩ | ⟨y, hy, hky, hey⟩
        · have hold := hinv e hmem' hel
          unfold EventConsistent at hold ⊢
          rw [hlm_other e.id hne]
          exact hold
        · subst hey
          simp at hel

theorem wf_initial : WF initialState :=
  ⟨List.nodup_nil, List.nodup_nil,
   fun s hs => absurd hs (List.not_mem_nil s),
   fun e he => absurd he (List.not_mem_nil e),
   fun s hs => absurd hs (List.not_mem_nil s)⟩

theorem derivedinv_initial : DerivedInv initialState :=
  fun e he _ => absurd he (List.not_mem_nil e)

theorem run_preserves : ∀ (ops : List Op) (st : ServerState), WF st → DerivedInv st →
    st.streams.length + numCreates ops ≤ 100 → SafeRun st ops →
    WF (run st ops) ∧ DerivedInv (run st ops) := by
  intro ops
  induction ops with
  | nil =>
    intro st h1 h2 _ _
    exact ⟨h1, h2⟩
  | cons op ops ih =>
    intro st h1 h2 hlen hsafe
    cases op with
    | create now p u =>
      have hlen1 : st.streams.length + 1 ≤ 100 := by
        simp only [numCreates] at hlen
        omega
      have hc := create_preserves st now p u h1 h2 hlen1
      have hsr : SafeRun (runOp st (Op.create now p u)) ops := hsafe
      have hlen2 : (runOp st (Op.create now p u)).streams.length + numCreates ops
          ≤ 100 := by
        show (create_stream st now p u).1.streams.length + numCreates ops ≤ 100
        rw [hc.2.2]
        simp only [numCreates] at hlen
        omega
      exact ih (runOp st (Op.create now p u)) hc.1 hc.2.1 hlen2 hsr
    | stop now sid =>
      have hss : SafeStop st sid ∧ SafeRun (runOp st (Op.stop now sid)) ops := hsafe
      have hc := stop_preserves st now sid h1 h2 hss.1
      have hlen2 : (runOp st (Op.stop now sid)).streams.length + numCreates ops
          ≤ 100 := by
        show (end_stream st now sid).1.streams.length + numCreates ops ≤ 100
        rw [hc.2.2]
        simp only [numCreates] at hlen
        omega
      exact ih (runOp st (Op.stop now sid)) hc.1 hc.2.1 hlen2 hss.2

/-- C1 (amended): after any sequence of stream creations and stream ends in
which every end hits an unassigned stream or the last live member of its
event, and with at most 100 creations (the store page limit), every live
event's `stream_count` equals the number of live streams referencing it and
its centroid is the arithmetic mean of their raw coordinates. -/
theorem derived_invariant_safe (ops : List Op)
    (hsafe : SafeRun initialState ops) (hn : numCreates ops ≤ 100) :
    DerivedInv (run initialState ops) :=
  (run_preserves ops initialState wf_initial derivedinv_initial
    (by simpa [initialState] using hn) hsafe).2

/-- Witness: one creation followed by a safe end of the (unassigned) stream
satisfies the amended C1 hypotheses, and the invariant holds at the end. -/
theorem derived_invariant_safe_witness :
    (SafeRun initialState [Op.create 0 (exPayload 0) 0, Op.stop 1 0] ∧
      numCreates [Op.create 0 (exPayload 0) 0, Op.stop 1 0] ≤ 100) ∧
    DerivedInv (run initialState [Op.create 0 (exPayload 0) 0, Op.stop 1 0]) := by
  have hsafe : SafeRun initialState [Op.create 0 (exPayload 0) 0, Op.stop 1 0] := by
    simp only [SafeRun]
    refine ⟨?_, trivial⟩
    have hst : runOp initialState (Op.create 0 (exPayload 0) 0) =
        ⟨[exDoc 0 0 none], [], 1⟩ := by
      show (create_stream initialState 0 (exPayload 0) 0).1 = _
      rw [stepC1]
    rw [hst]
    intro s hs hsid hslive E hE
    rw [List.mem_singleton] at hs
    subst hs
    simp [exDoc] at hE
  exact ⟨⟨hsafe, by norm_num [numCreates]⟩,
    derived_invariant_safe _ hsafe (by norm_num [numCreates])⟩

set_option maxHeartbeats 1600000 in
/-- Core masking bound: a planar offset of `dist ≤ 0.999 ρ` metres produced by
`mask_location`'s degree arithmetic lands within true haversine distance `ρ`
of the raw point, for latitudes up to 60°. -/
theorem haversine_planar_offset_le (lat lng dist ρ A : ℝ)
    (hlat : |lat| ≤ 60) (hd0 : 0 ≤ dist) (hd1 : dist ≤ 0.999 * ρ)
    (hρ0 : 0 < ρ) (hρ2 : ρ ≤ 1000) :
    haversine_distance_m lat lng (lat + dist / 111320 * Real.sin A)
      (lng + dist / (111320 * max 0.00001 (Real.cos (radians lat))) * Real.cos A) ≤ ρ := by
  have hpi0 := Real.pi_pos
  have hpiu := Real.pi_lt_d6
  have hpil := Real.pi_gt_d6
  have hdist_le : dist ≤ 999 := by nlinarith
  -- the longitude clamp is inactive below 60 degrees of latitude
  have hc1 : (1:ℝ)/2 ≤ Real.cos (radians lat) := by
    rw [← Real.cos_abs]
    have habs : |radians lat| ≤ Real.pi / 3 := by
      rw [radians, abs_div, abs_mul, abs_of_pos hpi0]
      rw [abs_of_nonneg (by norm_num : (0:ℝ) ≤ 180)]
      rw [div_le_div_iff (by norm_num) (by norm_num)]
      nlinarith
    have h2 := Real.cos_le_cos_of_nonneg_of_le_pi (abs_nonneg (radians lat))
      (by nlinarith : Real.pi / 3 ≤ Real.pi) habs
    rw [Real.cos_pi_div_three] at h2
    exact h2
  have hM : max 0.00001 (Real.cos (radians lat)) = Real.cos (radians lat) :=
    max_eq_right (by nlinarith)
  rw [hM]
  set c1 : ℝ := Real.cos (radians lat) with hc1def
  set dlat : ℝ := dist / 111320 * Real.sin A with hdlat
  set dlng : ℝ := dist / (111320 * c1) * Real.cos A with hdlng
  have hc10 : 0 < c1 := by nlinarith
  -- absolute size of the latitude offset
  have hdlat_abs : |dlat| ≤ dist / 111320 := by
    rw [hdlat, abs_mul, abs_div]
    rw [abs_of_nonneg hd0, abs_of_nonneg (by norm_num : (0:ℝ) ≤ 111320)]
    have := Real.abs_sin_le_one A
    nlinarith [abs_nonneg (Real.sin A), div_nonneg hd0 (by norm_num : (0:ℝ) ≤ 111320)]
  -- unfold the haversine for the two points
  rw [haversine_eq]
  have e1 : lat + dlat - lat = dlat := by ring
  have e2 : lng + dlng - lng = dlng := by ring
  rw [e1, e2, ← hc1def]
  set c2 : ℝ := Real.cos (radians (lat + dlat)) with hc2def
  set a : ℝ := Real.sin (radians dlat / 2) ^ 2 + c1 * c2 * Real.sin (radians dlng / 2) ^ 2
    with hadef
  -- the second latitude's cosine exceeds the first's by at most the offset
  have hc2ub : c2 ≤ c1 + |radians dlat| := by
    have h2 := abs_cos_sub_cos_le_abs (radians (lat + dlat)) (radians lat)
    have h3 : radians (lat + dlat) - radians lat = radians dlat := by
      rw [radians, radians, radians]; ring
    rw [h3] at h2
    rw [hc2def, hc1def]
    have := abs_le.mp h2
    linarith [this.2]
  have hc20 : 0 ≤ c2 := by
    rw [hc2def, ← Real.cos_abs]
    apply Real.cos_nonneg_of_mem_Icc
    constructor
    · have := abs_nonneg (radians (lat + dlat))
      nlinarith
    · have habs2 : |lat + dlat| ≤ 61 := by
        have h4 : |dlat| ≤ 1 := by
          have : dist / 111320 ≤ 1 := by nlinarith
          linarith [hdlat_abs]
        calc |lat + dlat| ≤ |lat| + |dlat| := abs_add lat dlat
          _ ≤ 61 := by linarith
      rw [radians, abs_div, abs_mul, abs_of_pos hpi0,
        abs_of_nonneg (by norm_num : (0:ℝ) ≤ 180)]
      rw [div_le_div_iff (by norm_num) (by norm_num)]
      nlinarith
  -- numeric bound on the radian latitude offset
  have hrdlat : |radians dlat| ≤ 0.000158 := by
    rw [radians, abs_div, abs_mul, abs_of_pos hpi0,
      abs_of_nonneg (by norm_num : (0:ℝ) ≤ 180)]
    rw [div_le_iff (by norm_num)]
    have h15 : |dlat| ≤ 999 / 111320 := by
      apply le_trans hdlat_abs
      linarith
    have h16 : |dlat| * Real.pi ≤ (999 / 111320) * 3.141593 :=
      mul_le_mul h15 hpiu.le hpi0.le (by norm_num)
    linarith
  -- the common scale factor of both squared half-angles
  set K : ℝ := dist * Real.pi / (111320 * 360) with hK
  have hK0 : 0 ≤ K := by
    rw [hK]
    positivity
  have hKub : K ≤ 0.0000784 := by
    rw [hK, div_le_iff (by norm_num)]
    have h17 : dist * Real.pi ≤ 999 * 3.141593 :=
      mul_le_mul hdist_le hpiu.le hpi0.le (by norm_num)
    linarith
  -- bound a by K^2 (1 + 2 |radians dlat|)
  have haub : a ≤ K ^ 2 * 1.000316 := by
    have hs1 : Real.sin (radians dlat / 2) ^ 2 ≤ (radians dlat / 2) ^ 2 :=
      Real.sin_sq_le_sq
    have hs2 : Real.sin (radians dlng / 2) ^ 2 ≤ (radians dlng / 2) ^ 2 :=
      Real.sin_sq_le_sq
    have hphi : (radians dlat / 2) ^ 2 = K ^ 2 * Real.sin A ^ 2 := by
      rw [hK, radians, hdlat]
      field_simp
      ring
    have hlam : c1 ^ 2 * (radians dlng / 2) ^ 2 = K ^ 2 * Real.cos A ^ 2 := by
      rw [hK, radians, hdlng]
      field_simp
      ring
    have hsq : Real.sin A ^ 2 + Real.cos A ^ 2 = 1 := Real.sin_sq_add_cos_sq A
    have h6 : c1 * c2 * Real.sin (radians dlng / 2) ^ 2 ≤
        (c1 + |radians dlat|) * c1 * (radians dlng / 2) ^ 2 := by
      have hsq0 : (0:ℝ) ≤ Real.sin (radians dlng / 2) ^ 2 := sq_nonneg _
      have h7 : c1 * c2 ≤ c1 * (c1 + |radians dlat|) :=
        mul_le_mul_of_nonneg_left hc2ub hc10.le
      have hfac : (0:ℝ) ≤ c1 * (c1 + |radians dlat|) :=
        mul_nonneg hc10.le (le_trans hc10.le (le_add_of_nonneg_right (abs_nonneg _)))
      calc c1 * c2 * Real.sin (radians dlng / 2) ^ 2
          ≤ c1 * (c1 + |radians dlat|) * Real.sin (radians dlng / 2) ^ 2 :=
            mul_le_mul_of_nonneg_right h7 hsq0
        _ ≤ c1 * (c1 + |radians dlat|) * (radians dlng / 2) ^ 2 :=
            mul_le_mul_of_nonneg_left hs2 hfac
        _ = (c1 + |radians dlat|) * c1 * (radians dlng / 2) ^ 2 := by ring
    have h8 : (c1 + |radians dlat|) * c1 * (radians dlng / 2) ^ 2 ≤
        (1 + 2 * |radians dlat|) * (c1 ^ 2 * (radians dlng / 2) ^ 2) := by
      have h10 : (0:ℝ) ≤ (radians dlng / 2) ^ 2 := sq_nonneg _
      have hx0 : (0:ℝ) ≤ |radians dlat| * (radians dlng / 2) ^ 2 :=
        mul_nonneg (abs_nonneg _) h10
      have h11 : |radians dlat| * (radians dlng / 2) ^ 2 ≤
          2 * c1 * (|radians dlat| * (radians dlng / 2) ^ 2) := by
        have h11a : (0:ℝ) ≤ (2 * c1 - 1) * (|radians dlat| * (radians dlng / 2) ^ 2) :=
          mul_nonneg (by linarith) hx0
        linarith [h11a]
      have h11b := mul_le_mul_of_nonneg_left h11 hc10.le
      linarith [h11b]
    have h12 : (1 + 2 * |radians dlat|) ≤ 1.000316 := by
      linarith
    rw [hadef]
    have h13 : K ^ 2 * Real.sin A ^ 2 + (1 + 2 * |radians dlat|) * (K ^ 2 * Real.cos A ^ 2) ≤
        K ^ 2 * 1.000316 := by
      have hcos1 : Real.cos A ^ 2 ≤ 1 := Real.cos_sq_le_one A
      have t0 : (0:ℝ) ≤ K ^ 2 * Real.cos A ^ 2 := mul_nonneg (sq_nonneg K) (sq_nonneg _)
      have t1 : K ^ 2 * Real.cos A ^ 2 ≤ K ^ 2 := by
        have := mul_le_mul_of_nonneg_left hcos1 (sq_nonneg K)
        linarith [this]
      have t2 : K ^ 2 * Real.sin A ^ 2 + K ^ 2 * Real.cos A ^ 2 = K ^ 2 := by
        rw [← mul_add, hsq, mul_one]
      have t3 : |radians dlat| * (K ^ 2 * Real.cos A ^ 2) ≤ 0.000158 * (K ^ 2 * Real.cos A ^ 2) :=
        mul_le_mul_of_nonneg_right hrdlat t0
      have t4 : (0.000158 : ℝ) * (K ^ 2 * Real.cos A ^ 2) ≤ 0.000158 * K ^ 2 :=
        mul_le_mul_of_nonneg_left t1 (by norm_num)
      linarith [t2, t3, t4]
    calc Real.sin (radians dlat / 2) ^ 2 + c1 * c2 * Real.sin (radians dlng / 2) ^ 2
        ≤ (radians dlat / 2) ^ 2 + (1 + 2 * |radians dlat|) * (c1 ^ 2 * (radians dlng / 2) ^ 2) := by
          have := le_trans h6 h8
          linarith
      _ = K ^ 2 * Real.sin A ^ 2 + (1 + 2 * |radians dlat|) * (K ^ 2 * Real.cos A ^ 2) := by
          rw [hphi, hlam]
      _ ≤ K ^ 2 * 1.000316 := h13
  have ha0 : 0 ≤ a := by
    rw [hadef]
    have q1 := sq_nonneg (Real.sin (radians dlat / 2))
    have q2 : (0:ℝ) ≤ c1 * c2 * Real.sin (radians dlng / 2) ^ 2 :=
      mul_nonneg (mul_nonneg hc10.le hc20) (sq_nonneg _)
    linarith [q1, q2]
  have haub2 : a ≤ 0.0000000062 := by
    have hKsq : K ^ 2 ≤ 0.0000784 ^ 2 := pow_le_pow_left hK0 hKub 2
    have hKsq2 : K ^ 2 ≤ 0.0000000062 / 1.000316 := by
      have : (0.0000784:ℝ) ^ 2 ≤ 0.0000000062 / 1.000316 := by norm_num
      linarith [hKsq]
    have h18 := mul_le_mul_of_nonneg_right hKsq2 (by norm_num : (0:ℝ) ≤ 1.000316)
    have h19 : (0.0000000062:ℝ) / 1.000316 * 1.000316 = 0.0000000062 := by norm_num
    linarith [haub, h18, h19.le]
  -- the sqrt of the complement is close to one
  have hcomp : (0.999:ℝ) ≤ Real.sqrt (1 - a) := by
    rw [show (0.999:ℝ) = Real.sqrt (0.999 ^ 2) from (Real.sqrt_sq (by norm_num)).symm]
    apply Real.sqrt_le_sqrt
    have : (0.999:ℝ) ^ 2 = 0.998001 := by norm_num
    linarith [haub2, this.le, this.ge]
  have hcomp0 : 0 < Real.sqrt (1 - a) := lt_of_lt_of_le (by norm_num) hcomp
  have hsqa : Real.sqrt a ≤ K * 1.000158 := by
    have h14 : a ≤ (K * 1.000158) ^ 2 := by
      have hexp : (K * 1.000158) ^ 2 = K ^ 2 * 1.000316024964 := by ring
      rw [hexp]
      have h20 := mul_le_mul_of_nonneg_left
        (by norm_num : (1.000316:ℝ) ≤ 1.000316024964) (sq_nonneg K)
      linarith [haub, h20]
    calc Real.sqrt a ≤ Real.sqrt ((K * 1.000158) ^ 2) := Real.sqrt_le_sqrt h14
      _ = K * 1.000158 := Real.sqrt_sq (by positivity)
  rw [atan2_of_pos _ _ hcomp0]
  have hdivpos : 0 ≤ Real.sqrt a / Real.sqrt (1 - a) :=
    div_nonneg (Real.sqrt_nonneg a) (le_of_lt hcomp0)
  have harc := arctan_le_self_of_nonneg _ hdivpos
  have hdivle : Real.sqrt a / Real.sqrt (1 - a) ≤ (K * 1.000158) / 0.999 := by
    apply div_le_div (by positivity) hsqa (by norm_num) hcomp
  have hfinal : Real.arctan (Real.sqrt a / Real.sqrt (1 - a)) ≤ K * 1.000158 / 0.999 :=
    le_trans harc hdivle
  have : (6371000:ℝ) * (2 * Real.arctan (Real.sqrt a / Real.sqrt (1 - a))) ≤
      6371000 * (2 * (K * 1.000158 / 0.999)) := by linarith [hfinal]
  apply le_trans this
  have hprod : dist * Real.pi ≤ 0.999 * ρ * 3.141593 :=
    mul_le_mul hd1 hpiu.le hpi0.le (by linarith)
  rw [hK]
  have h21 : (6371000:ℝ) * (2 * (dist * Real.pi / (111320 * 360) * 1.000158 / 0.999))
      = 12742000 * 1.000158 / (40075200 * 0.999) * (dist * Real.pi) := by ring
  rw [h21]
  have h22 := mul_le_mul_of_nonneg_left hprod
    (by norm_num : (0:ℝ) ≤ 12742000 * 1.000158 / (40075200 * 0.999))
  have h23 : (12742000:ℝ) * 1.000158 / (40075200 * 0.999) * (0.999 * ρ * 3.141593) ≤ ρ := by
    have hc : (12742000:ℝ) * 1.000158 / (40075200 * 0.999) * (0.999 * 3.141593) ≤ 1 := by norm_num
    nlinarith [hρ0.le]
  linarith [h22, h23]


/-! ### C5: masking radius bound -/

/-- Evaluation of `mask_location` in `masked_100m` mode. -/
theorem mask_location_100m_eq (lat lng : ℝ) (u : ℕ) :
    mask_location lat lng .masked_100m u =
      (lat + (maskDistIdx u : ℝ) / 1000 * 100 / 111320 *
         Real.sin ((maskAngleIdx u : ℝ) * Real.pi / 180),
       lng + (maskDistIdx u : ℝ) / 1000 * 100 /
         (111320 * max 0.00001 (Real.cos (radians lat))) *
         Real.cos ((maskAngleIdx u : ℝ) * Real.pi / 180)) := by
  rfl

/-- Evaluation of `mask_location` in `masked_1km` mode. -/
theorem mask_location_1km_eq (lat lng : ℝ) (u : ℕ) :
    mask_location lat lng .masked_1km u =
      (lat + (maskDistIdx u : ℝ) / 1000 * 1000 / 111320 *
         Real.sin ((maskAngleIdx u : ℝ) * Real.pi / 180),
       lng + (maskDistIdx u : ℝ) / 1000 * 1000 /
         (111320 * max 0.00001 (Real.cos (radians lat))) *
         Real.cos ((maskAngleIdx u : ℝ) * Real.pi / 180)) := by
  rfl

/-- The distance draw of `mask_location` is at most 999. -/
theorem maskDistIdx_le (u : ℕ) : ((maskDistIdx u : ℕ) : ℝ) ≤ 999 := by
  have h : u % 1000000 % 1000 < 1000 := Nat.mod_lt _ (by norm_num)
  have h2 : maskDistIdx u ≤ 999 := Nat.lt_succ_iff.mp h
  exact_mod_cast h2

/-- C5 (amended): for latitudes up to 60 degrees, `exact` mode returns the raw
point unchanged, and the haversine distance from the raw point to the masked
point is at most 100 m in `masked_100m` mode and at most 1000 m in
`masked_1km` mode. -/
theorem mask_location_within_radius (lat lng : ℝ) (u : ℕ) (hlat : |lat| ≤ 60) :
    mask_location lat lng .exact u = (lat, lng) ∧
    haversine_distance_m lat lng (mask_location lat lng .masked_100m u).1
      (mask_location lat lng .masked_100m u).2 ≤ 100 ∧
    haversine_distance_m lat lng (mask_location lat lng .masked_1km u).1
      (mask_location lat lng .masked_1km u).2 ≤ 1000 := by
  have hd9 := maskDistIdx_le u
  have hd0 : (0:ℝ) ≤ (maskDistIdx u : ℝ) := Nat.cast_nonneg _
  refine ⟨rfl, ?_, ?_⟩
  · rw [mask_location_100m_eq]
    exact haversine_planar_offset_le lat lng ((maskDistIdx u : ℝ) / 1000 * 100) 100
      ((maskAngleIdx u : ℝ) * Real.pi / 180) hlat (by positivity) (by linarith)
      (by norm_num) (by norm_num)
  · rw [mask_location_1km_eq]
    exact haversine_planar_offset_le lat lng ((maskDistIdx u : ℝ) / 1000 * 1000) 1000
      ((maskAngleIdx u : ℝ) * Real.pi / 180) hlat (by positivity) (by linarith)
      (by norm_num) (by norm_num)

/-- Witness: the amended C5 bound instantiated at the origin with draw 0. -/
theorem mask_location_within_radius_witness :
    |(0:ℝ)| ≤ 60 ∧
    (mask_location 0 0 .exact 0 = (0, 0) ∧
     haversine_distance_m 0 0 (mask_location 0 0 .masked_100m 0).1
       (mask_location 0 0 .masked_100m 0).2 ≤ 100 ∧
     haversine_distance_m 0 0 (mask_location 0 0 .masked_1km 0).1
       (mask_location 0 0 .masked_1km 0).2 ≤ 1000) :=
  ⟨by norm_num, mask_location_within_radius 0 0 0 (by norm_num)⟩


/-- C5 (claim as stated): the masking guarantee of the spec at every latitude. -/
def maskingBoundClaim : Prop :=
  ∀ (lat lng : ℝ) (u : ℕ),
    mask_location lat lng .exact u = (lat, lng) ∧
    haversine_distance_m lat lng (mask_location lat lng .masked_100m u).1
      (mask_location lat lng .masked_100m u).2 ≤ 100 ∧
    haversine_distance_m lat lng (mask_location lat lng .masked_1km u).1
      (mask_location lat lng .masked_1km u).2 ≤ 1000

/-- The masked point produced at latitude -89.9995, longitude 0, draw 7980. -/
theorem pole_masked_point :
    mask_location (-89.9995) 0 .masked_100m 7980 =
      (-89.9995 + 49 * Real.sqrt 3 / 111320, 49 / 1.1132) := by
  have hpi0 := Real.pi_pos
  have hpiu := Real.pi_lt_d6
  have hcosval : Real.cos (radians (-89.9995:ℝ)) = Real.sin (Real.pi / 360000) := by
    rw [show radians (-89.9995:ℝ) = -(Real.pi / 2 - Real.pi / 360000) from by
      rw [radians]; ring]
    rw [Real.cos_neg, Real.cos_pi_div_two_sub]
  have hsin_small : Real.sin (Real.pi / 360000) < 0.00001 := by
    have h1 : Real.sin (Real.pi / 360000) < Real.pi / 360000 := Real.sin_lt (by positivity)
    have h2 : Real.pi / 360000 < 0.00001 := by linarith
    linarith
  have hmax : max 0.00001 (Real.cos (radians (-89.9995:ℝ))) = 0.00001 := by
    apply max_eq_left
    rw [hcosval]
    linarith
  rw [mask_location_100m_eq, hmax]
  have h60 : ((maskAngleIdx 7980 : ℕ) : ℝ) = 60 := by norm_num [maskAngleIdx]
  have h980 : ((maskDistIdx 7980 : ℕ) : ℝ) = 980 := by norm_num [maskDistIdx]
  rw [h60, h980]
  rw [show (60:ℝ) * Real.pi / 180 = Real.pi / 3 from by ring]
  rw [Real.sin_pi_div_three, Real.cos_pi_div_three]
  simp only [Prod.mk.injEq]
  constructor
  · ring
  · ring

set_option maxHeartbeats 1600000 in
/-- At the near-pole counterexample input the true haversine distance of the
masked point from the raw point exceeds 100 m. -/
theorem pole_distance_gt :
    100 < haversine_distance_m (-89.9995) 0
      (-89.9995 + 49 * Real.sqrt 3 / 111320) (49 / 1.1132) := by
  have hpi0 := Real.pi_pos
  have hpiu := Real.pi_lt_d6
  have hpil := Real.pi_gt_d6
  have hs3l : (1.7320508:ℝ) < Real.sqrt 3 := by
    apply Real.lt_sqrt_of_sq_lt
    norm_num
  have hs3u : Real.sqrt 3 < 1.7320509 := by
    rw [Real.sqrt_lt' (by norm_num)]
    norm_num
  have hs30 : (0:ℝ) < Real.sqrt 3 := by linarith
  rw [haversine_eq]
  have e1 : -89.9995 + 49 * Real.sqrt 3 / 111320 - -89.9995
      = 49 * Real.sqrt 3 / 111320 := by ring
  have e2 : (49:ℝ) / 1.1132 - 0 = 49 / 1.1132 := by ring
  rw [e1, e2]
  have hav : radians (49 * Real.sqrt 3 / 111320) / 2
      = 49 * Real.sqrt 3 * Real.pi / 40075200 := by
    rw [radians]; ring
  have hbv : radians ((49:ℝ) / 1.1132) / 2 = 49 * Real.pi / 400.752 := by
    rw [radians]; ring
  have hc1v : Real.cos (radians (-89.9995:ℝ)) = Real.sin (Real.pi / 360000) := by
    rw [show radians (-89.9995:ℝ) = -(Real.pi / 2 - Real.pi / 360000) from by
      rw [radians]; ring]
    rw [Real.cos_neg, Real.cos_pi_div_two_sub]
  have hc2v : Real.cos (radians (-89.9995 + 49 * Real.sqrt 3 / 111320)) =
      Real.sin ((0.0005 + 49 * Real.sqrt 3 / 111320) * Real.pi / 180) := by
    rw [show radians (-89.9995 + 49 * Real.sqrt 3 / 111320)
        = -(Real.pi / 2 - (0.0005 + 49 * Real.sqrt 3 / 111320) * Real.pi / 180) from by
      rw [radians]; ring]
    rw [Real.cos_neg, Real.cos_pi_div_two_sub]
  rw [hav, hbv, hc1v, hc2v]
  set α : ℝ := 49 * Real.sqrt 3 * Real.pi / 40075200 with hα
  set β : ℝ := 49 * Real.pi / 400.752 with hβ
  set y : ℝ := Real.pi / 360000 with hy
  set z : ℝ := (0.0005 + 49 * Real.sqrt 3 / 111320) * Real.pi / 180 with hz
  set a : ℝ := Real.sin α ^ 2 + Real.sin y * Real.sin z * Real.sin β ^ 2 with ha
  -- bounds on alpha
  have hα1 : (84.87:ℝ) * 3.141592 ≤ 49 * Real.sqrt 3 * Real.pi :=
    mul_le_mul (by linarith) hpil.le (by norm_num) (by positivity)
  have hα2 : 49 * Real.sqrt 3 * Real.pi ≤ 84.8705 * 3.141593 :=
    mul_le_mul (by linarith) hpiu.le hpi0.le (by norm_num)
  have heα1 : (266.626:ℝ) ≤ 84.87 * 3.141592 := by norm_num
  have heα2 : (84.8705:ℝ) * 3.141593 ≤ 266.63 := by norm_num
  have hαl : (6.653e-6:ℝ) ≤ α := by rw [hα]; linarith
  have hαu : α ≤ 6.6533e-6 := by rw [hα]; linarith
  have hα0 : (0:ℝ) < α := by linarith
  -- bounds on sin alpha
  have hαcube : α ^ 3 ≤ (6.6533e-6:ℝ) ^ 3 := pow_le_pow_left hα0.le hαu 3
  have heα3 : ((6.6533e-6:ℝ)) ^ 3 / 4 ≤ 1e-16 := by norm_num
  have hsinα := Real.sin_gt_sub_cube hα0 (by linarith : α ≤ 1)
  have hsinαl : (6.6529e-6:ℝ) ≤ Real.sin α := by linarith
  have hsq1 : ((6.6529e-6:ℝ)) ^ 2 ≤ Real.sin α ^ 2 :=
    pow_le_pow_left (by norm_num) hsinαl 2
  have he1 : (4.426e-11:ℝ) ≤ ((6.6529e-6:ℝ)) ^ 2 := by norm_num
  -- bounds on y and sin y
  have hyl : (8.7266e-6:ℝ) ≤ y := by rw [hy]; linarith
  have hyu : y ≤ 8.7267e-6 := by rw [hy]; linarith
  have hy0 : (0:ℝ) < y := by linarith
  have hycube : y ^ 3 ≤ (8.7267e-6:ℝ) ^ 3 := pow_le_pow_left hy0.le hyu 3
  have hey1 : ((8.7267e-6:ℝ)) ^ 3 / 4 ≤ 1e-15 := by norm_num
  have hsiny := Real.sin_gt_sub_cube hy0 (by linarith : y ≤ 1)
  have hsyl : (8.7265e-6:ℝ) ≤ Real.sin y := by linarith
  have hsyu : Real.sin y ≤ 8.7267e-6 := by
    have := Real.sin_lt hy0
    linarith
  -- bounds on z and sin z
  have hδl : (0.000762401:ℝ) ≤ 49 * Real.sqrt 3 / 111320 := by linarith
  have hδu : 49 * Real.sqrt 3 / 111320 ≤ 0.000762402 := by linarith
  have hz1 : (0.001262:ℝ) * 3.141592 ≤ (0.0005 + 49 * Real.sqrt 3 / 111320) * Real.pi :=
    mul_le_mul (by linarith) hpil.le (by norm_num) (by linarith)
  have hz2 : (0.0005 + 49 * Real.sqrt 3 / 111320) * Real.pi ≤ 0.0012625 * 3.141593 :=
    mul_le_mul (by linarith) hpiu.le hpi0.le (by norm_num)
  have hez1 : (0.003963:ℝ) ≤ 0.001262 * 3.141592 := by norm_num
  have hez2 : (0.0012625:ℝ) * 3.141593 ≤ 0.003967 := by norm_num
  have hzl : (2.2e-5:ℝ) ≤ z := by rw [hz]; linarith
  have hzu : z ≤ 2.21e-5 := by rw [hz]; linarith
  have hz0 : (0:ℝ) < z := by linarith
  have hzcube : z ^ 3 ≤ (2.21e-5:ℝ) ^ 3 := pow_le_pow_left hz0.le hzu 3
  have hez3 : ((2.21e-5:ℝ)) ^ 3 / 4 ≤ 1e-14 := by norm_num
  have hsinz := Real.sin_gt_sub_cube hz0 (by linarith : z ≤ 1)
  have hsinzl : (2.199e-5:ℝ) ≤ Real.sin z := by linarith
  have hsinzu : Real.sin z ≤ 2.21e-5 := by
    have := Real.sin_lt hz0
    linarith
  -- bounds on beta and sin beta
  have hβl : (0.38412:ℝ) ≤ β := by
    rw [hβ, le_div_iff (by norm_num : (0:ℝ) < 400.752)]
    have h : (0.38412:ℝ) * 400.752 ≤ 153.937 := by norm_num
    linarith
  have hβu : β ≤ 0.38413 := by
    rw [hβ, div_le_iff (by norm_num : (0:ℝ) < 400.752)]
    have h : (153.939:ℝ) ≤ 0.38413 * 400.752 := by norm_num
    linarith
  have hβ0 : (0:ℝ) < β := by linarith
  have hβcube : β ^ 3 ≤ (0.38413:ℝ) ^ 3 := pow_le_pow_left hβ0.le hβu 3
  have heβ1 : ((0.38413:ℝ)) ^ 3 / 4 ≤ 0.01418 := by norm_num
  have hsinβ := Real.sin_gt_sub_cube hβ0 (by linarith : β ≤ 1)
  have hsinβl : (0.3699:ℝ) ≤ Real.sin β := by linarith
  have hsinβsq : ((0.3699:ℝ)) ^ 2 ≤ Real.sin β ^ 2 :=
    pow_le_pow_left (by norm_num) hsinβl 2
  have he4 : (0.1368:ℝ) ≤ ((0.3699:ℝ)) ^ 2 := by norm_num
  -- lower bound on a
  have p1 : (8.7265e-6:ℝ) * 2.199e-5 ≤ Real.sin y * Real.sin z :=
    mul_le_mul hsyl hsinzl (by norm_num) (by linarith)
  have p2 : (8.7265e-6:ℝ) * 2.199e-5 * ((0.3699:ℝ)) ^ 2 ≤
      Real.sin y * Real.sin z * Real.sin β ^ 2 :=
    mul_le_mul p1 hsinβsq (by positivity) (by linarith [p1])
  have he5 : (2.6e-11:ℝ) ≤ 8.7265e-6 * 2.199e-5 * ((0.3699:ℝ)) ^ 2 := by norm_num
  have ha_lo : (6.5e-11:ℝ) ≤ a := by
    rw [ha]
    linarith [hsq1, he1, p2, he5]
  -- upper bound on a
  have hs1a : Real.sin α ^ 2 ≤ α ^ 2 := Real.sin_sq_le_sq
  have hs1b : α ^ 2 ≤ ((6.6533e-6:ℝ)) ^ 2 := pow_le_pow_left hα0.le hαu 2
  have he6 : ((6.6533e-6:ℝ)) ^ 2 ≤ 4.43e-11 := by norm_num
  have q1 : Real.sin z ≤ 1 := Real.sin_le_one z
  have q3 : Real.sin y * Real.sin z ≤ 8.7267e-6 * 1 :=
    mul_le_mul hsyu q1 (by linarith) (by norm_num)
  have q4 : Real.sin y * Real.sin z * Real.sin β ^ 2 ≤ 8.7267e-6 * 1 * 1 :=
    mul_le_mul q3 (Real.sin_sq_le_one β) (sq_nonneg _) (by norm_num)
  have he7 : (8.7267e-6:ℝ) * 1 * 1 ≤ 9e-6 := by norm_num
  have ha_up : a ≤ 1e-5 := by
    rw [ha]
    linarith [hs1a, hs1b, he6, q4, he7]
  have ha0 : (0:ℝ) ≤ a := by linarith
  -- square roots
  have hcomp0 : 0 < Real.sqrt (1 - a) := Real.sqrt_pos.mpr (by linarith)
  have hsqrt1 : Real.sqrt (1 - a) ≤ 1 := Real.sqrt_le_one.mpr (by linarith)
  have hsa : (8.0e-6:ℝ) ≤ Real.sqrt a := by
    apply Real.le_sqrt_of_sq_le
    have : ((8.0e-6:ℝ)) ^ 2 ≤ 6.5e-11 := by norm_num
    linarith
  rw [atan2_of_pos _ _ hcomp0]
  have hratio : Real.sqrt a ≤ Real.sqrt a / Real.sqrt (1 - a) := by
    rw [le_div_iff hcomp0]
    have h := mul_le_mul_of_nonneg_left hsqrt1 (Real.sqrt_nonneg a)
    linarith [h]
  -- arctan lower bound via the tangent
  have hTpi2 : (1:ℝ) / 127420 < Real.pi / 2 := by linarith
  have hT2 : -(Real.pi / 2) < (1:ℝ) / 127420 := by linarith
  have hsinT : Real.sin ((1:ℝ) / 127420) < (1:ℝ) / 127420 := Real.sin_lt (by norm_num)
  have hsinsqT : Real.sin ((1:ℝ) / 127420) ^ 2 ≤ ((1:ℝ) / 127420) ^ 2 := Real.sin_sq_le_sq
  have hpyth := Real.sin_sq_add_cos_sq ((1:ℝ) / 127420)
  have hTsq : ((1:ℝ) / 127420) ^ 2 ≤ 0.0199 := by norm_num
  have hcossq : (0.9801:ℝ) ≤ Real.cos ((1:ℝ) / 127420) ^ 2 := by linarith
  have hcos0 : (0:ℝ) ≤ Real.cos ((1:ℝ) / 127420) :=
    Real.cos_nonneg_of_mem_Icc ⟨by linarith, by linarith⟩
  have hcosT : (0.99:ℝ) ≤ Real.cos ((1:ℝ) / 127420) := by
    have h99 : (0.99:ℝ) = Real.sqrt 0.9801 := by
      rw [show (0.9801:ℝ) = 0.99 ^ 2 by norm_num, Real.sqrt_sq (by norm_num)]
    rw [h99]
    calc Real.sqrt 0.9801 ≤ Real.sqrt (Real.cos ((1:ℝ) / 127420) ^ 2) :=
          Real.sqrt_le_sqrt hcossq
      _ = Real.cos ((1:ℝ) / 127420) := Real.sqrt_sq hcos0
  have htan0 : 0 < Real.tan ((1:ℝ) / 127420) :=
    Real.tan_pos_of_pos_of_lt_pi_div_two (by norm_num) hTpi2
  have htm : Real.tan ((1:ℝ) / 127420) * Real.cos ((1:ℝ) / 127420)
      = Real.sin ((1:ℝ) / 127420) :=
    Real.tan_mul_cos (by linarith : Real.cos ((1:ℝ) / 127420) ≠ 0)
  have htanub : Real.tan ((1:ℝ) / 127420) < 8.0e-6 := by
    have h1 := mul_le_mul_of_nonneg_left hcosT htan0.le
    linarith [h1, htm.le, htm.ge, hsinT]
  have harctanT : (1:ℝ) / 127420 < Real.arctan (Real.sqrt a) :=
    lt_arctan_of_tan_lt (Real.sqrt a) ((1:ℝ) / 127420) hT2 hTpi2 (by linarith)
  have hmono : Real.arctan (Real.sqrt a) ≤ Real.arctan (Real.sqrt a / Real.sqrt (1 - a)) :=
    Real.arctan_strictMono.monotone hratio
  have hfin : (1:ℝ) / 127420 < Real.arctan (Real.sqrt a / Real.sqrt (1 - a)) := by linarith
  linarith [hfin]

/-- C5 (counterexample): the literal masking claim fails near the pole, where
the planar degree offset of mask_location overshoots the 100 m radius at
latitude -89.9995 with draw 7980. -/
theorem masking_bound_claim_false : ¬ maskingBoundClaim := by
  intro h
  have key := (h (-89.9995) 0 7980).2.1
  rw [pole_masked_point] at key
  have key2 : haversine_distance_m (-89.9995) 0
      (-89.9995 + 49 * Real.sqrt 3 / 111320) (49 / 1.1132) ≤ 100 := key
  exact absurd key2 (not_le.mpr pole_distance_gt)

end Allsee
